import Mathlib

/-!
# nvidia-fuse: GPU telemetry as a read-only virtual filesystem

A shallow embedding of the two entry points of the repository, `main.c` and
`nvfs.c`, followed by theorems about the embedded functions.

Conventions of the embedding

* A C `char` object is the natural number of its byte value. A region of memory
  that holds a C string is a `List Nat`; reading at or past the end of the list
  yields the terminator `0`, so the string a region denotes is the run of bytes
  before its first `0` (`cstr`).
* `size_t` and `unsigned long long` are naturals reduced modulo `2 ^ 64` where
  the source can wrap, `unsigned int` is a natural below `2 ^ 32`, `off_t` and
  `int` are integers; the casts of the source are written out (`to_size_t`,
  `to_int`).
* The global table `gpu` is passed explicitly. The mutex only serialises the
  accesses, so a call is a function of the table it finds.
-/

/-! ## C library pieces used by both programs -/

/-- The bytes of a string literal of the source. -/
def bytes (s : String) : List Nat := s.toList.map Char.toNat

/-- The C string held in a region of memory: the bytes before the first NUL. -/
def cstr (m : List Nat) : List Nat := m.takeWhile (fun b => b != 0)

/-- `strlen`: the number of bytes before the first NUL. -/
def strlen (m : List Nat) : Nat := (cstr m).length

/-- `strcmp` on two regions of memory, each read up to its terminator: the
difference of the first pair of bytes that differ, `0` when both strings end
together. -/
def strcmp : List Nat → List Nat → Int
  | [], [] => 0
  | [], b :: _ => 0 - (b : Int)
  | a :: _, [] => (a : Int)
  | a :: as, b :: bs =>
    if a ≠ b then (a : Int) - (b : Int)
    else if a = 0 then 0
    else strcmp as bs

/-- The effect of `snprintf(dst, n, ...)` on `dst`, where `text` is the fully
formatted output: at most `n - 1` bytes of `text` are stored, then a NUL; the
bytes of `dst` after that NUL keep their old value. -/
def snprintf (dst : List Nat) (n : Nat) (text : List Nat) : List Nat :=
  if n = 0 then dst
  else text.take (n - 1) ++ 0 :: dst.drop (min text.length (n - 1) + 1)

/-- Decimal digits of `n`, most significant first, in front of `acc`. The first
argument bounds the number of digits produced. -/
def utoa : Nat → Nat → List Nat → List Nat
  | 0, _, acc => acc
  | fuel + 1, n, acc =>
    if n < 10 then (48 + n) :: acc
    else utoa fuel (n / 10) ((48 + n % 10) :: acc)

/-- Output of the conversion `%u`. -/
def fmt_u (n : Nat) : List Nat := utoa (n + 1) n []

/-- Output of the conversion `%d`. -/
def fmt_d (i : Int) : List Nat :=
  if i < 0 then 45 :: fmt_u i.natAbs else fmt_u i.natAbs

/-- Conversion of an unsigned value to `int` (32 bits, two's complement). -/
def to_int (n : Nat) : Int :=
  if n % 2 ^ 32 < 2 ^ 31 then ((n % 2 ^ 32 : Nat) : Int)
  else ((n % 2 ^ 32 : Nat) : Int) - 2 ^ 32

/-- Conversion of an `off_t` to `size_t` (64 bits). -/
def to_size_t (off : Int) : Nat := (off % 2 ^ 64).toNat

/-- Errno value `ENOENT`. -/
def ENOENT : Int := 2

/-- Return code `NVML_SUCCESS`. -/
def NVML_SUCCESS : Nat := 0

/-- File type mask and the two file types of `sys/stat.h`. -/
def S_IFMT : Nat := 0o170000

/-- Directory type bits. -/
def S_IFDIR : Nat := 0o040000

/-- Regular file type bits. -/
def S_IFREG : Nat := 0o100000

/-- The fields of `struct stat`. -/
structure stat where
  st_dev : Nat
  st_ino : Nat
  st_mode : Nat
  st_nlink : Nat
  st_uid : Nat
  st_gid : Nat
  st_rdev : Nat
  st_size : Int
  st_blksize : Int
  st_blocks : Int
  st_atime : Int
  st_mtime : Int
  st_ctime : Int
  deriving DecidableEq, Repr

/-- The value `memset(st, 0, sizeof(*st))` leaves in `*st`. -/
def stat.zeroed : stat :=
  { st_dev := 0, st_ino := 0, st_mode := 0, st_nlink := 0, st_uid := 0,
    st_gid := 0, st_rdev := 0, st_size := 0, st_blksize := 0, st_blocks := 0,
    st_atime := 0, st_mtime := 0, st_ctime := 0 }

/-- The field `nvmlMemory_t`: three `unsigned long long` byte counts. -/
structure nvmlMemory_t where
  total : Nat
  free : Nat
  used : Nat
  deriving DecidableEq, Repr

/-- The field `nvmlUtilization_t`: two `unsigned int` percentages. -/
structure nvmlUtilization_t where
  gpu : Nat
  memory : Nat
  deriving DecidableEq, Repr

/-- What one round of the three NVML queries hands to the collector: the return
code of each call and the value found in its output variable afterwards. -/
structure Poll where
  memRet : Nat
  mem : nvmlMemory_t
  utilRet : Nat
  util : nvmlUtilization_t
  tempRet : Nat
  temp : Nat
  deriving DecidableEq, Repr

/-- What a call of `my_read` does: the value returned, the length handed to
`memcpy` and the bytes stored in the caller's buffer. -/
structure ReadOut where
  ret : Int
  ncopy : Nat
  data : List Nat
  deriving DecidableEq, Repr

/-! ## main.c -/

namespace MainC

/-- Capacity of each value buffer. -/
def BUF_SIZE : Nat := 16

/-- The table `struct gpu_stats`: three buffers of `BUF_SIZE` bytes. -/
structure gpu_stats where
  vram : List Nat
  temp : List Nat
  util : List Nat
  deriving DecidableEq, Repr

/-- An entry of `files`: a name and the buffer it points to. -/
structure gpu_file where
  name : List Nat
  buf : gpu_stats → List Nat

/-- The static table `gpu` before the collector has written to it. -/
def gpu : gpu_stats :=
  { vram := List.replicate BUF_SIZE 0
    temp := List.replicate BUF_SIZE 0
    util := List.replicate BUF_SIZE 0 }

/-- The static array `files`. -/
def files : List gpu_file :=
  [ { name := bytes "vram", buf := gpu_stats.vram },
    { name := bytes "temp", buf := gpu_stats.temp },
    { name := bytes "util", buf := gpu_stats.util } ]

/-- The value computed for `vram_perc` on line 72. -/
def vram_perc (mem : nvmlMemory_t) : Int :=
  to_int ((mem.used * 100 % 2 ^ 64) / mem.total)

/-- One iteration of the loop body of `collector_thread`. -/
def collector_cycle (q : Poll) (g : gpu_stats) : gpu_stats :=
  if q.memRet ≠ NVML_SUCCESS ∨ q.utilRet ≠ NVML_SUCCESS ∨ q.tempRet ≠ NVML_SUCCESS then g
  else if q.mem.total = 0 then g
  else
    { vram := snprintf g.vram BUF_SIZE (fmt_d (vram_perc q.mem) ++ [10])
      util := snprintf g.util BUF_SIZE (fmt_u q.util.gpu ++ [10])
      temp := snprintf g.temp BUF_SIZE (fmt_u q.temp ++ [10]) }

/-- The loop of `collector_thread` over the iterations it gets to run: each
item is the value of `running` read at the loop head and the poll of that
iteration. -/
def collector_thread : List (Bool × Poll) → gpu_stats → gpu_stats
  | [], g => g
  | (running, q) :: rest, g =>
    if running then collector_thread rest (collector_cycle q g) else g

/-- Function `find_file`. -/
def find_file (path : List Nat) : Option gpu_file :=
  if path.getD 0 0 ≠ 47 ∨ path.getD 1 0 = 0 then none
  else files.find? (fun f => strcmp (path.drop 1) f.name == 0)

/-- Function `my_getattr`: the return value and the contents of `*st`. -/
def my_getattr (g : gpu_stats) (path : List Nat) (_st : stat) : Int × stat :=
  let st := stat.zeroed
  if strcmp path (bytes "/") = 0 then
    (0, { st with st_mode := S_IFDIR ||| 0o755, st_nlink := 2 })
  else
    match find_file path with
    | none => (-ENOENT, st)
    | some f =>
      (0, { st with st_size := (strlen (f.buf g) : Int),
                    st_mode := S_IFREG ||| 0o444, st_nlink := 1 })

/-- Function `my_open`. -/
def my_open (path : List Nat) : Int :=
  if (find_file path).isSome then 0 else -ENOENT

/-- Function `my_read`. The argument `tmp0` is what the local array `tmp`
holds before `snprintf` fills it. The field `ncopy` is the third argument of
the call of `memcpy`; when it exceeds the bytes `tmp` has after `off` the call
is undefined in C, and `ret` and `data` are then only what the statements
would give if the copy stopped at the end of `tmp`. -/
def my_read (g : gpu_stats) (tmp0 : List Nat) (path : List Nat) (size : Nat) (off : Int) :
    ReadOut :=
  match find_file path with
  | none => { ret := -ENOENT, ncopy := 0, data := [] }
  | some f =>
    let tmp := snprintf tmp0 BUF_SIZE (cstr (f.buf g))
    let len := strlen tmp
    if to_size_t off ≥ len then { ret := 0, ncopy := 0, data := [] }
    else
      let size := if (to_size_t off + size) % 2 ^ 64 > len then len - to_size_t off else size
      { ret := to_int size, ncopy := size, data := (tmp.drop (to_size_t off)).take size }

/-- Every buffer has its capacity and holds a terminated string. -/
def gpu_stats.wf (g : gpu_stats) : Prop :=
  (g.vram.length = BUF_SIZE ∧ strlen g.vram < BUF_SIZE) ∧
  (g.temp.length = BUF_SIZE ∧ strlen g.temp < BUF_SIZE) ∧
  (g.util.length = BUF_SIZE ∧ strlen g.util < BUF_SIZE)

instance (g : gpu_stats) : Decidable g.wf := by
  unfold gpu_stats.wf; infer_instance

end MainC

/-! ## nvfs.c -/

namespace NvfsC

/-- Path macro `PATH_VRAM`. -/
def PATH_VRAM : List Nat := bytes "/vram"

/-- Path macro `PATH_UTIL`. -/
def PATH_UTIL : List Nat := bytes "/util"

/-- Path macro `PATH_TEMP`. -/
def PATH_TEMP : List Nat := bytes "/temp"

/-- The anonymous struct type of the table `gpu`: three buffers of 8 bytes. -/
structure gpu_stats where
  vram : List Nat
  temp : List Nat
  util : List Nat
  deriving DecidableEq, Repr

/-- The static table `gpu` before the collector has written to it. -/
def gpu : gpu_stats :=
  { vram := List.replicate 8 0
    temp := List.replicate 8 0
    util := List.replicate 8 0 }

/-- The value computed for `vram_perc` on line 39. -/
def vram_perc (mem : nvmlMemory_t) : Int :=
  if mem.total ≠ 0 then to_int ((mem.used * 100 % 2 ^ 64) / mem.total) else 0

/-- One iteration of the loop body of `collector_thread`. The return codes of
the three queries are not read. -/
def collector_cycle (q : Poll) (g : gpu_stats) : gpu_stats :=
  { vram := snprintf g.vram 8 (fmt_d (vram_perc q.mem))
    util := snprintf g.util 8 (fmt_d (to_int q.util.gpu))
    temp := snprintf g.temp 8 (fmt_u q.temp) }

/-- The loop of `collector_thread` over the iterations it gets to run. -/
def collector_thread : List Poll → gpu_stats → gpu_stats
  | [], g => g
  | q :: rest, g => collector_thread rest (collector_cycle q g)

/-- Function `my_getattr`: the return value and the contents of `*st`. -/
def my_getattr (_g : gpu_stats) (path : List Nat) (_st : stat) : Int × stat :=
  let st := stat.zeroed
  if strcmp path (bytes "/") = 0 then
    (0, { st with st_mode := S_IFDIR ||| 0o755, st_nlink := 2 })
  else if strcmp path PATH_VRAM = 0 ∨ strcmp path PATH_UTIL = 0 ∨ strcmp path PATH_TEMP = 0 then
    (0, { st with st_mode := S_IFREG ||| 0o444, st_nlink := 1, st_size := 8 })
  else (-ENOENT, st)

/-- Function `my_open`. -/
def my_open (path : List Nat) : Int :=
  if strcmp path PATH_VRAM = 0 ∨ strcmp path PATH_UTIL = 0 ∨ strcmp path PATH_TEMP = 0 then 0
  else -ENOENT

/-- The pointer `src` chosen by the `strcmp` chain of `my_read`. -/
def select_src (g : gpu_stats) (path : List Nat) : Option (List Nat) :=
  if strcmp path PATH_VRAM = 0 then some g.vram
  else if strcmp path PATH_TEMP = 0 then some g.temp
  else if strcmp path PATH_UTIL = 0 then some g.util
  else none

/-- Function `my_read`. The field `ncopy` is the third argument of the call of
`memcpy`; when it exceeds the bytes `src` has after `off` the call is undefined
in C, as in main.c. -/
def my_read (g : gpu_stats) (path : List Nat) (size : Nat) (off : Int) : ReadOut :=
  match select_src g path with
  | none => { ret := -ENOENT, ncopy := 0, data := [] }
  | some src =>
    let len := strlen src
    if to_size_t off ≥ len then { ret := 0, ncopy := 0, data := [] }
    else
      let size := if (to_size_t off + size) % 2 ^ 64 > len then len - to_size_t off else size
      { ret := to_int size, ncopy := size, data := (src.drop (to_size_t off)).take size }

/-- Every buffer has its capacity and holds a terminated string. -/
def gpu_stats.wf (g : gpu_stats) : Prop :=
  (g.vram.length = 8 ∧ strlen g.vram < 8) ∧
  (g.temp.length = 8 ∧ strlen g.temp < 8) ∧
  (g.util.length = 8 ∧ strlen g.util < 8)

instance (g : gpu_stats) : Decidable g.wf := by
  unfold gpu_stats.wf; infer_instance

end NvfsC

/-! ## Vocabulary of the read contract -/

/-- The read of the filesystem contract on a value: the bytes in the range
`[off, min (off + size) len)` and the count `min size (len - off)`. -/
def read_slice (value : List Nat) (size : Nat) (off : Nat) : ReadOut :=
  { ret := ((min size (value.length - off) : Nat) : Int)
    ncopy := min size (value.length - off)
    data := (value.take (min (off + size) value.length)).drop off }

/-- A clean end of file: zero returned, nothing copied. -/
def read_eof : ReadOut := { ret := 0, ncopy := 0, data := [] }

/-- The poll of the example of the specification: 2 GiB used of 8 GiB, 37 percent
utilisation, 65 degrees, every query successful. -/
def sample_poll : Poll :=
  { memRet := 0, mem := { total := 8589934592, free := 6442450944, used := 2147483648 },
    utilRet := 0, util := { gpu := 37, memory := 0 }, tempRet := 0, temp := 65 }

/-- The example poll with the memory total reported as 0. -/
def zero_total_poll : Poll :=
  { sample_poll with mem := { total := 0, free := 0, used := 0 } }

/-- The memory query fails (its output variable still holds the example
reading); the other two succeed and the temperature now reads 70. -/
def failed_memory_poll : Poll :=
  { sample_poll with memRet := 1, temp := 70 }

/-- A poll with `used = total = 2 ^ 63`, every query successful: the product
`used * 100` does not fit 64 bits. -/
def wrap_poll : Poll :=
  { sample_poll with
    mem := { total := 9223372036854775808, free := 0, used := 9223372036854775808 } }

/-- The cycle publishes: every query succeeded and the total memory is not 0. -/
def Poll.ok (q : Poll) : Prop :=
  q.memRet = NVML_SUCCESS ∧ q.utilRet = NVML_SUCCESS ∧ q.tempRet = NVML_SUCCESS ∧
    q.mem.total ≠ 0

instance (q : Poll) : Decidable q.ok := by
  unfold Poll.ok; infer_instance

/-- The readings are values of their C types with `used <= total`. -/
def Poll.in_range (q : Poll) : Prop :=
  q.mem.used ≤ q.mem.total ∧ q.mem.total < 2 ^ 64 ∧ q.util.gpu < 2 ^ 32 ∧ q.temp < 2 ^ 32

instance (q : Poll) : Decidable q.in_range := by
  unfold Poll.in_range; infer_instance

/-- One or more ASCII decimal digits followed by exactly one newline, and
nothing else. -/
def metric_text (v : List Nat) : Prop :=
  v.getLast? = some 10 ∧ v.dropLast ≠ [] ∧ ∀ d ∈ v.dropLast, 48 ≤ d ∧ d ≤ 57

instance (v : List Nat) : Decidable (metric_text v) := by
  unfold metric_text; infer_instance

/-! ## Directory listing -/

/-- Function `my_readdir` of main.c: the return value and the names handed to
`filler`, in order. -/
def MainC.my_readdir (path : List Nat) : Int × List (List Nat) :=
  if strcmp path (bytes "/") ≠ 0 then (-ENOENT, [])
  else (0, [bytes ".", bytes ".."] ++ MainC.files.map MainC.gpu_file.name)

/-- Function `my_readdir` of nvfs.c: the return value and the names handed to
`filler`, in order. -/
def NvfsC.my_readdir (path : List Nat) : Int × List (List Nat) :=
  if strcmp path (bytes "/") ≠ 0 then (-ENOENT, [])
  else (0, [bytes ".", bytes "..", bytes "vram", bytes "temp", bytes "util"])

/-! ## The division of the collector as a partial operation -/

/-- Unsigned division of C: no result when the divisor is 0. -/
def c_udiv (a b : Nat) : Option Nat := if b = 0 then none else some (a / b)

/-- The loop body of `collector_thread` of main.c with the division of line 72
as the partial operation it is in C; `none` is a division by zero. -/
def MainC.collector_cycle_div (q : Poll) (g : MainC.gpu_stats) : Option MainC.gpu_stats :=
  if q.memRet ≠ NVML_SUCCESS ∨ q.utilRet ≠ NVML_SUCCESS ∨ q.tempRet ≠ NVML_SUCCESS then some g
  else if q.mem.total = 0 then some g
  else
    (c_udiv (q.mem.used * 100 % 2 ^ 64) q.mem.total).map fun x =>
      { vram := snprintf g.vram MainC.BUF_SIZE (fmt_d (to_int x) ++ [10])
        util := snprintf g.util MainC.BUF_SIZE (fmt_u q.util.gpu ++ [10])
        temp := snprintf g.temp MainC.BUF_SIZE (fmt_u q.temp ++ [10]) }

/-- The loop body of `collector_thread` of nvfs.c with the division of line 39
as the partial operation it is in C; `none` is a division by zero. -/
def NvfsC.collector_cycle_div (q : Poll) (g : NvfsC.gpu_stats) : Option NvfsC.gpu_stats :=
  (if q.mem.total ≠ 0 then (c_udiv (q.mem.used * 100 % 2 ^ 64) q.mem.total).map to_int
    else some 0).map fun perc =>
      { vram := snprintf g.vram 8 (fmt_d perc)
        util := snprintf g.util 8 (fmt_d (to_int q.util.gpu))
        temp := snprintf g.temp 8 (fmt_u q.temp) }

/-! ## Reads that overlap a publish -/

/-- Function `my_read` of nvfs.c when the collector publishes after line 118 has
released the mutex: `strlen(src)` on line 123 finds the table `g1`, `memcpy` on
line 131 finds the table `g2`. -/
def NvfsC.my_read_overlapped (g1 g2 : NvfsC.gpu_stats) (path : List Nat) (size : Nat)
    (off : Int) : ReadOut :=
  match NvfsC.select_src g1 path, NvfsC.select_src g2 path with
  | some src1, some src2 =>
    let len := strlen src1
    if to_size_t off ≥ len then { ret := 0, ncopy := 0, data := [] }
    else
      let size := if (to_size_t off + size) % 2 ^ 64 > len then len - to_size_t off else size
      { ret := to_int size, ncopy := size, data := (src2.drop (to_size_t off)).take size }
  | _, _ => { ret := -ENOENT, ncopy := 0, data := [] }

/-- What a function does with the mutex and the value buffers of `gpu`, in the
order of its statements. -/
inductive Step where
  | lock
  | unlock
  | access
  deriving DecidableEq, Repr

/-- Every `access` of the sequence happens between a `lock` and the next
`unlock`; the first argument tells whether the mutex is held at the start. -/
def locked_accesses : Bool → List Step → Bool
  | _, [] => true
  | _, Step.lock :: rest => locked_accesses true rest
  | _, Step.unlock :: rest => locked_accesses false rest
  | held, Step.access :: rest => held && locked_accesses held rest

/-- Lines 74 to 78 of main.c: the three `snprintf` into `gpu` between lock and
unlock. -/
def MainC.collector_steps : List Step :=
  [Step.lock, Step.access, Step.access, Step.access, Step.unlock]

/-- Lines 159 to 171 of main.c: `snprintf` reads `f->buf` between lock and
unlock; `strlen` and `memcpy` work on the local `tmp`. -/
def MainC.my_read_steps : List Step := [Step.lock, Step.access, Step.unlock]

/-- Lines 115 to 117 of main.c: `strlen(f->buf)` between lock and unlock. -/
def MainC.my_getattr_steps : List Step := [Step.lock, Step.access, Step.unlock]

/-- Lines 41 to 45 of nvfs.c: the three `snprintf` into `gpu` between lock and
unlock. -/
def NvfsC.collector_steps : List Step :=
  [Step.lock, Step.access, Step.access, Step.access, Step.unlock]

/-- Lines 111 to 131 of nvfs.c: only the choice of the pointer `src` lies
between lock and unlock; `strlen(src)` and `memcpy` from `src` follow the
unlock. -/
def NvfsC.my_read_steps : List Step := [Step.lock, Step.unlock, Step.access, Step.access]

/-- A poll with all the memory in use: 8 GiB of 8 GiB, every query successful. -/
def full_poll : Poll :=
  { sample_poll with mem := { total := 8589934592, free := 0, used := 8589934592 } }

/-- The table of nvfs.c seen as a table of main.c, field by field. -/
def NvfsC.gpu_stats.as_main (n : NvfsC.gpu_stats) : MainC.gpu_stats :=
  { vram := n.vram, temp := n.temp, util := n.util }

/-! ## Strings and formatting -/

theorem cstr_cons (a : Nat) (m : List Nat) :
    cstr (a :: m) = if a = 0 then [] else a :: cstr m := by
  by_cases h : a = 0 <;> simp [cstr, List.takeWhile_cons, h]

theorem cstr_nul_free (m : List Nat) : ∀ b ∈ cstr m, b ≠ 0 := by
  intro b hb
  have h := List.mem_takeWhile_imp hb
  simpa using h

theorem cstr_append_nul (t rest : List Nat) (h : ∀ b ∈ t, b ≠ 0) :
    cstr (t ++ 0 :: rest) = t := by
  induction t with
  | nil => simp [cstr]
  | cons a t ih =>
    have ha : a ≠ 0 := h a (by simp)
    have ht : ∀ b ∈ t, b ≠ 0 := fun b hb => h b (by simp [hb])
    simp [cstr_cons, ha, ih ht]

theorem cstr_eq_self (t : List Nat) (h : ∀ b ∈ t, b ≠ 0) : cstr t = t := by
  induction t with
  | nil => rfl
  | cons a t ih =>
    have ha : a ≠ 0 := h a (by simp)
    have ht : ∀ b ∈ t, b ≠ 0 := fun b hb => h b (by simp [hb])
    simp [cstr_cons, ha, ih ht]

theorem cstr_idem (m : List Nat) : cstr (cstr m) = cstr m :=
  cstr_eq_self _ (cstr_nul_free m)

theorem cstr_snprintf (dst : List Nat) (n : Nat) (text : List Nat) (hn : n ≠ 0)
    (h : ∀ b ∈ text, b ≠ 0) : cstr (snprintf dst n text) = text.take (n - 1) := by
  unfold snprintf
  rw [if_neg hn]
  exact cstr_append_nul _ _ (fun b hb => h b (List.mem_of_mem_take hb))

theorem length_snprintf (dst : List Nat) (n : Nat) (text : List Nat) (hn : n ≠ 0)
    (hd : dst.length = n) : (snprintf dst n text).length = n := by
  unfold snprintf
  rw [if_neg hn]
  simp only [List.length_append, List.length_take, List.length_cons, List.length_drop, hd]
  omega

theorem strcmp_eq_zero_iff (a b : List Nat) : strcmp a b = 0 ↔ cstr a = cstr b := by
  induction a generalizing b with
  | nil =>
    cases b with
    | nil => simp [strcmp]
    | cons y ys =>
      by_cases hy : y = 0
      · simp [strcmp, cstr_cons, hy, cstr]
      · have : ¬ ((y : Int) = 0) := by exact_mod_cast hy
        simp [strcmp, cstr_cons, hy, cstr, this]
  | cons x xs ih =>
    cases b with
    | nil =>
      by_cases hx : x = 0
      · simp [strcmp, cstr_cons, hx, cstr]
      · have : ¬ ((x : Int) = 0) := by exact_mod_cast hx
        simp [strcmp, cstr_cons, hx, cstr, this]
    | cons y ys =>
      by_cases hxy : x = y
      · subst hxy
        by_cases hx : x = 0
        · simp [strcmp, cstr_cons, hx]
        · simp [strcmp, cstr_cons, hx, ih ys]
      · have hne : ¬ ((x : Int) - (y : Int) = 0) := by
          intro h
          apply hxy
          have : (x : Int) = (y : Int) := by linarith
          exact_mod_cast this
        by_cases hx : x = 0
        · have hy : y ≠ 0 := fun hy => hxy (hx.trans hy.symm)
          simp [strcmp, cstr_cons, hx, hy, hxy, hne]
          intro h
          exact hy h.symm
        · by_cases hy : y = 0
          · simp [strcmp, cstr_cons, hx, hy, hxy, hne]
          · simp [strcmp, cstr_cons, hx, hy, hxy, hne]

theorem strcmp_beq_zero (a b : List Nat) :
    (strcmp a b == 0) = decide (cstr a = cstr b) := by
  by_cases h : cstr a = cstr b
  · simp [h, (strcmp_eq_zero_iff a b).2 h]
  · have h0 : strcmp a b ≠ 0 := fun h0 => h ((strcmp_eq_zero_iff a b).1 h0)
    simp [h, h0]

theorem utoa_eq_digits (fuel n : Nat) (acc : List Nat) (h0 : 0 < n) (hf : n < 10 ^ fuel) :
    utoa fuel n acc = ((Nat.digits 10 n).reverse.map (fun d => 48 + d)) ++ acc := by
  induction fuel generalizing n acc with
  | zero => simp at hf; omega
  | succ fuel ih =>
    unfold utoa
    by_cases hlt : n < 10
    · rw [if_pos hlt, Nat.digits_of_lt 10 n (by omega) hlt]
      simp
    · rw [if_neg hlt]
      have hdiv0 : 0 < n / 10 := Nat.div_pos (by omega) (by norm_num)
      have hdivf : n / 10 < 10 ^ fuel := by
        rw [Nat.div_lt_iff_lt_mul (by norm_num)]
        calc n < 10 ^ (fuel + 1) := hf
          _ = 10 ^ fuel * 10 := by ring
      rw [ih (n / 10) _ hdiv0 hdivf]
      conv_rhs => rw [Nat.digits_def' (by norm_num : 1 < 10) h0]
      simp

theorem fmt_u_zero : fmt_u 0 = [48] := by decide

theorem fmt_u_eq_digits (n : Nat) (h0 : 0 < n) :
    fmt_u n = (Nat.digits 10 n).reverse.map (fun d => 48 + d) := by
  unfold fmt_u
  rw [utoa_eq_digits (n + 1) n [] h0 (Nat.lt_pow_self (by norm_num) _ |>.trans_le
    (Nat.pow_le_pow_right (by norm_num) (Nat.le_succ n)))]
  simp

theorem fmt_u_digit (n : Nat) : ∀ d ∈ fmt_u n, 48 ≤ d ∧ d ≤ 57 := by
  intro d hd
  rcases Nat.eq_zero_or_pos n with h | h
  · subst h
    rw [fmt_u_zero] at hd
    simp at hd
    omega
  · rw [fmt_u_eq_digits n h] at hd
    simp only [List.mem_map, List.mem_reverse] at hd
    obtain ⟨x, hx, rfl⟩ := hd
    have := Nat.digits_lt_base (by norm_num : 1 < 10) hx
    omega

theorem fmt_u_ne_nil (n : Nat) : fmt_u n ≠ [] := by
  rcases Nat.eq_zero_or_pos n with h | h
  · subst h; rw [fmt_u_zero]; simp
  · rw [fmt_u_eq_digits n h]
    intro hnil
    have hd : Nat.digits 10 n = [] := by simpa using hnil
    exact (Nat.pos_iff_ne_zero.1 h) (Nat.digits_eq_nil_iff_eq_zero.1 hd)

theorem fmt_u_length_le (n k : Nat) (hk : 0 < k) (h : n < 10 ^ k) : (fmt_u n).length ≤ k := by
  rcases Nat.eq_zero_or_pos n with h0 | h0
  · subst h0; rw [fmt_u_zero]; simpa using hk
  · rw [fmt_u_eq_digits n h0]
    simp only [List.length_map, List.length_reverse]
    rw [Nat.digits_len 10 n (by norm_num) (Nat.pos_iff_ne_zero.1 h0)]
    exact Nat.log_lt_of_lt_pow (Nat.pos_iff_ne_zero.1 h0) h

theorem fmt_u_nul_free (n : Nat) : ∀ b ∈ fmt_u n, b ≠ 0 := by
  intro b hb
  have := fmt_u_digit n b hb
  omega

theorem fmt_d_nul_free (i : Int) : ∀ b ∈ fmt_d i, b ≠ 0 := by
  intro b hb
  unfold fmt_d at hb
  split_ifs at hb
  · rcases List.mem_cons.1 hb with h | h
    · omega
    · exact fmt_u_nul_free _ b h
  · exact fmt_u_nul_free _ b hb

theorem strlen_snprintf_lt (dst : List Nat) (n : Nat) (text : List Nat) (hn : n ≠ 0)
    (h : ∀ b ∈ text, b ≠ 0) : strlen (snprintf dst n text) < n := by
  unfold strlen
  rw [cstr_snprintf dst n text hn h, List.length_take]
  omega

/-! ## Path resolution in main.c -/

theorem bytes_vram : bytes "vram" = [118, 114, 97, 109] := by decide

theorem bytes_temp : bytes "temp" = [116, 101, 109, 112] := by decide

theorem bytes_util : bytes "util" = [117, 116, 105, 108] := by decide

theorem bytes_slash_vram : bytes "/vram" = [47, 118, 114, 97, 109] := by decide

theorem bytes_slash_temp : bytes "/temp" = [47, 116, 101, 109, 112] := by decide

theorem bytes_slash_util : bytes "/util" = [47, 117, 116, 105, 108] := by decide

theorem bytes_slash : bytes "/" = [47] := by decide

/-- The lookup of `find_file` depends on the path only through the string it
holds: it is the first entry of `files` whose name, after a slash, is that
string. -/
theorem MainC.find_file_eq (path : List Nat) :
    MainC.find_file path =
      MainC.files.find? (fun f => decide (cstr path = 47 :: f.name)) := by
  have hv : cstr [118, 114, 97, 109] = [118, 114, 97, 109] := by decide
  have ht : cstr [116, 101, 109, 112] = [116, 101, 109, 112] := by decide
  have hu : cstr [117, 116, 105, 108] = [117, 116, 105, 108] := by decide
  cases path with
  | nil => simp [MainC.find_file, MainC.files, List.find?, cstr, bytes_vram, bytes_temp, bytes_util]
  | cons a rest =>
    by_cases ha : a = 47
    · subst ha
      cases rest with
      | nil =>
        simp [MainC.find_file, MainC.files, List.find?, cstr_cons, cstr, bytes_vram, bytes_temp,
          bytes_util]
      | cons b rest2 =>
        by_cases hb : b = 0
        · subst hb
          simp [MainC.find_file, MainC.files, List.find?, cstr_cons, bytes_vram, bytes_temp,
            bytes_util]
        · simp [MainC.find_file, MainC.files, List.find?, hb, bytes_vram, bytes_temp,
            bytes_util, strcmp_beq_zero, hv, ht, hu, cstr_cons (47 : Nat)]
    · by_cases h0 : a = 0
      · subst h0
        simp [MainC.find_file, MainC.files, List.find?, cstr_cons, bytes_vram, bytes_temp,
          bytes_util]
      · simp [MainC.find_file, MainC.files, List.find?, cstr_cons, bytes_vram, bytes_temp,
          bytes_util, ha, h0]

theorem MainC.find_file_vram (path : List Nat) (h : cstr path = bytes "/vram") :
    MainC.find_file path = some { name := bytes "vram", buf := MainC.gpu_stats.vram } := by
  rw [MainC.find_file_eq, h]
  simp [MainC.files, List.find?, bytes_vram, bytes_temp, bytes_util, bytes_slash_vram]

theorem MainC.find_file_temp (path : List Nat) (h : cstr path = bytes "/temp") :
    MainC.find_file path = some { name := bytes "temp", buf := MainC.gpu_stats.temp } := by
  rw [MainC.find_file_eq, h]
  simp [MainC.files, List.find?, bytes_vram, bytes_temp, bytes_util, bytes_slash_temp]

theorem MainC.find_file_util (path : List Nat) (h : cstr path = bytes "/util") :
    MainC.find_file path = some { name := bytes "util", buf := MainC.gpu_stats.util } := by
  rw [MainC.find_file_eq, h]
  simp [MainC.files, List.find?, bytes_vram, bytes_temp, bytes_util, bytes_slash_util]

theorem MainC.find_file_none (path : List Nat) (hv : cstr path ≠ bytes "/vram")
    (ht : cstr path ≠ bytes "/temp") (hu : cstr path ≠ bytes "/util") :
    MainC.find_file path = none := by
  rw [MainC.find_file_eq]
  rw [bytes_slash_vram] at hv
  rw [bytes_slash_temp] at ht
  rw [bytes_slash_util] at hu
  simp [MainC.files, List.find?, bytes_vram, bytes_temp, bytes_util, hv, ht, hu]

/-! ## The clamp of `my_read` -/

theorem to_int_of_lt (n : Nat) (h : n < 2 ^ 31) : to_int n = (n : Int) := by
  unfold to_int
  have h1 : n % 2 ^ 32 = n := Nat.mod_eq_of_lt (by omega)
  rw [h1, if_pos h]

theorem to_size_t_of_nonneg (off : Int) (h0 : 0 ≤ off) (h1 : off < 2 ^ 64) :
    to_size_t off = off.toNat := by
  unfold to_size_t
  rw [Int.emod_eq_of_lt h0 h1]

theorem to_size_t_of_neg (off : Int) (h0 : -2 ^ 63 ≤ off) (h1 : off < 0) :
    2 ^ 63 ≤ to_size_t off := by
  unfold to_size_t
  have h2 : off % 2 ^ 64 = off + 2 ^ 64 := by
    rw [← Int.add_mul_emod_self_left off (2 ^ 64) 1]
    exact Int.emod_eq_of_lt (by omega) (by omega)
  rw [h2]
  omega

theorem mem_eq_cstr_append (m : List Nat) (h : strlen m < m.length) :
    m = cstr m ++ 0 :: m.drop (strlen m + 1) := by
  induction m with
  | nil => simp at h
  | cons a m ih =>
    by_cases ha : a = 0
    · subst ha
      simp [strlen, cstr_cons]
    · have h2 : strlen m < m.length := by
        simp [strlen, cstr_cons, ha] at h
        simpa [strlen] using h
      have e : strlen (a :: m) = strlen m + 1 := by simp [strlen, cstr_cons, ha]
      rw [e]
      simp only [cstr_cons, ha, if_false, List.cons_append, List.drop_succ_cons]
      exact congrArg (List.cons a) (ih h2)

theorem read_clamp (mem v rest : List Nat) (hmem : mem = v ++ 0 :: rest) (u size : Nat)
    (hu : u < v.length) (hs : u + size < 2 ^ 64) (hv : v.length < 2 ^ 31) :
    ({ ret := to_int (if (u + size) % 2 ^ 64 > v.length then v.length - u else size)
       ncopy := if (u + size) % 2 ^ 64 > v.length then v.length - u else size
       data := (mem.drop u).take
         (if (u + size) % 2 ^ 64 > v.length then v.length - u else size) } : ReadOut)
      = read_slice v size u := by
  have hmod : (u + size) % 2 ^ 64 = u + size := Nat.mod_eq_of_lt hs
  have hn : (if (u + size) % 2 ^ 64 > v.length then v.length - u else size)
      = min size (v.length - u) := by
    rw [hmod]
    split_ifs with h <;> omega
  rw [hn]
  have hle : min size (v.length - u) ≤ (v.drop u).length := by
    rw [List.length_drop]; exact Nat.min_le_right _ _
  have hdata : (mem.drop u).take (min size (v.length - u))
      = (v.take (min (u + size) v.length)).drop u := by
    rw [hmem, List.drop_append_of_le_length (Nat.le_of_lt hu),
      List.take_append_of_le_length hle, List.drop_take]
    congr 1
    omega
  rw [hdata, to_int_of_lt _ (by omega)]
  rfl

theorem MainC.strlen_tmp (tmp0 b : List Nat) :
    strlen (snprintf tmp0 MainC.BUF_SIZE (cstr b)) = min 15 (strlen b) := by
  unfold strlen
  rw [cstr_snprintf tmp0 MainC.BUF_SIZE (cstr b) (by decide) (cstr_nul_free b)]
  simp [MainC.BUF_SIZE]

theorem MainC.my_read_eof (g : MainC.gpu_stats) (tmp0 path : List Nat) (size : Nat) (off : Int)
    (f : MainC.gpu_file) (hf : MainC.find_file path = some f)
    (h : strlen (f.buf g) ≤ to_size_t off ∨ 15 ≤ to_size_t off) :
    MainC.my_read g tmp0 path size off = read_eof := by
  have hle : strlen (snprintf tmp0 MainC.BUF_SIZE (cstr (f.buf g))) ≤ to_size_t off := by
    rw [MainC.strlen_tmp]; omega
  simp only [MainC.my_read, hf]
  rw [if_pos hle]
  rfl

theorem MainC.my_read_slice (g : MainC.gpu_stats) (tmp0 path : List Nat) (size : Nat) (off : Int)
    (f : MainC.gpu_file) (hf : MainC.find_file path = some f)
    (hlen : strlen (f.buf g) < MainC.BUF_SIZE) (h0 : 0 ≤ off)
    (h1 : off < (strlen (f.buf g) : Int)) (hs : off.toNat + size < 2 ^ 64) :
    MainC.my_read g tmp0 path size off = read_slice (cstr (f.buf g)) size off.toNat := by
  have hB : MainC.BUF_SIZE = 16 := rfl
  rw [hB] at hlen
  have hu : to_size_t off = off.toNat := to_size_t_of_nonneg off h0 (by omega)
  have hlt : off.toNat < strlen (f.buf g) := by omega
  have hl : strlen (snprintf tmp0 MainC.BUF_SIZE (cstr (f.buf g))) = strlen (f.buf g) := by
    rw [MainC.strlen_tmp]; omega
  have htake : (cstr (f.buf g)).take (MainC.BUF_SIZE - 1) = cstr (f.buf g) :=
    List.take_of_length_le (by simp only [hB]; unfold strlen at hlen; omega)
  have hmem : snprintf tmp0 MainC.BUF_SIZE (cstr (f.buf g)) = cstr (f.buf g) ++
      0 :: tmp0.drop (min (cstr (f.buf g)).length (MainC.BUF_SIZE - 1) + 1) := by
    unfold snprintf
    rw [if_neg (by decide), htake]
  simp only [MainC.my_read, hf, hl, hu]
  rw [if_neg (by omega)]
  exact read_clamp _ _ _ hmem off.toNat size hlt hs (by unfold strlen at hlen; omega)

theorem MainC.my_read_full (g : MainC.gpu_stats) (tmp0 path : List Nat) (size : Nat)
    (f : MainC.gpu_file) (hf : MainC.find_file path = some f)
    (hlen : strlen (f.buf g) < MainC.BUF_SIZE) (hs : strlen (f.buf g) ≤ size)
    (hs2 : size < 2 ^ 64) :
    MainC.my_read g tmp0 path size 0 =
      { ret := (strlen (f.buf g) : Int), ncopy := strlen (f.buf g), data := cstr (f.buf g) } := by
  have hB : MainC.BUF_SIZE = 16 := rfl
  rw [hB] at hlen
  rcases Nat.eq_zero_or_pos (strlen (f.buf g)) with h0 | h0
  · rw [MainC.my_read_eof g tmp0 path size 0 f hf (Or.inl (by omega)), h0]
    have : cstr (f.buf g) = [] := List.length_eq_zero.1 h0
    rw [this]
    rfl
  · rw [MainC.my_read_slice g tmp0 path size 0 f hf (by omega) (le_refl _)
      (by exact_mod_cast h0) (by simpa using hs2)]
    unfold read_slice
    unfold strlen at hlen hs
    have e1 : min size ((cstr (f.buf g)).length - (0 : Int).toNat) = (cstr (f.buf g)).length := by
      simp; omega
    have e2 : min ((0 : Int).toNat + size) (cstr (f.buf g)).length = (cstr (f.buf g)).length := by
      simp; omega
    rw [e1, e2]
    simp [strlen]

/-! ## Path resolution in nvfs.c -/

theorem NvfsC.select_src_vram (n : NvfsC.gpu_stats) (path : List Nat)
    (h : cstr path = bytes "/vram") : NvfsC.select_src n path = some n.vram := by
  have e : strcmp path NvfsC.PATH_VRAM = 0 := by
    rw [strcmp_eq_zero_iff, h]; decide
  simp [NvfsC.select_src, e]

theorem NvfsC.select_src_temp (n : NvfsC.gpu_stats) (path : List Nat)
    (h : cstr path = bytes "/temp") : NvfsC.select_src n path = some n.temp := by
  have e1 : ¬ strcmp path NvfsC.PATH_VRAM = 0 := by
    rw [strcmp_eq_zero_iff, h]; decide
  have e2 : strcmp path NvfsC.PATH_TEMP = 0 := by
    rw [strcmp_eq_zero_iff, h]; decide
  simp [NvfsC.select_src, e1, e2]

theorem NvfsC.select_src_util (n : NvfsC.gpu_stats) (path : List Nat)
    (h : cstr path = bytes "/util") : NvfsC.select_src n path = some n.util := by
  have e1 : ¬ strcmp path NvfsC.PATH_VRAM = 0 := by
    rw [strcmp_eq_zero_iff, h]; decide
  have e2 : ¬ strcmp path NvfsC.PATH_TEMP = 0 := by
    rw [strcmp_eq_zero_iff, h]; decide
  have e3 : strcmp path NvfsC.PATH_UTIL = 0 := by
    rw [strcmp_eq_zero_iff, h]; decide
  simp [NvfsC.select_src, e1, e2, e3]

theorem NvfsC.nvfs_read_eof (n : NvfsC.gpu_stats) (path src : List Nat) (size : Nat) (off : Int)
    (hsrc : NvfsC.select_src n path = some src) (h : strlen src ≤ to_size_t off) :
    NvfsC.my_read n path size off = read_eof := by
  simp only [NvfsC.my_read, hsrc]
  rw [if_pos h]
  rfl

theorem NvfsC.nvfs_read_full (n : NvfsC.gpu_stats) (path src : List Nat) (size : Nat)
    (hsrc : NvfsC.select_src n path = some src) (hlen : strlen src < src.length)
    (hcap : src.length = 8) (hs : strlen src ≤ size) (hs2 : size < 2 ^ 64) :
    NvfsC.my_read n path size 0 =
      { ret := (strlen src : Int), ncopy := strlen src, data := cstr src } := by
  rcases Nat.eq_zero_or_pos (strlen src) with h0 | h0
  · rw [NvfsC.nvfs_read_eof n path src size 0 hsrc (by omega), h0]
    have : cstr src = [] := List.length_eq_zero.1 h0
    rw [this]
    rfl
  · have hu : to_size_t 0 = 0 := by decide
    simp only [NvfsC.my_read, hsrc, hu]
    rw [if_neg (by omega)]
    have hc := read_clamp src (cstr src) _ (mem_eq_cstr_append src hlen) 0 size
      (by unfold strlen at h0; exact h0) (by omega) (by unfold strlen at hlen; omega)
    unfold strlen
    rw [hc]
    unfold read_slice
    unfold strlen at hlen hs
    have e1 : min size ((cstr src).length - 0) = (cstr src).length := by
      simp; omega
    have e2 : min (0 + size) (cstr src).length = (cstr src).length := by
      simp; omega
    rw [e1, e2]
    simp

/-! ## Reads -/

/-- C2: in both programs a read of a recognised file at an offset at or past
the end of its current value returns 0 and copies nothing, whatever length is
requested; a negative offset is past the end as well. -/
theorem my_read_at_or_past_end (g : MainC.gpu_stats) (n : NvfsC.gpu_stats)
    (tmp0 path : List Nat) (size : Nat) (off : Int) (hn : n.wf)
    (hoff : -2 ^ 63 ≤ off ∧ off < 2 ^ 63) :
    (cstr path = bytes "/vram" → (strlen g.vram ≤ to_size_t off ∨ off < 0) →
      MainC.my_read g tmp0 path size off = read_eof) ∧
    (cstr path = bytes "/temp" → (strlen g.temp ≤ to_size_t off ∨ off < 0) →
      MainC.my_read g tmp0 path size off = read_eof) ∧
    (cstr path = bytes "/util" → (strlen g.util ≤ to_size_t off ∨ off < 0) →
      MainC.my_read g tmp0 path size off = read_eof) ∧
    (cstr path = bytes "/vram" → (strlen n.vram ≤ to_size_t off ∨ off < 0) →
      NvfsC.my_read n path size off = read_eof) ∧
    (cstr path = bytes "/temp" → (strlen n.temp ≤ to_size_t off ∨ off < 0) →
      NvfsC.my_read n path size off = read_eof) ∧
    (cstr path = bytes "/util" → (strlen n.util ≤ to_size_t off ∨ off < 0) →
      NvfsC.my_read n path size off = read_eof) := by
  obtain ⟨⟨_, hv⟩, ⟨_, ht⟩, ⟨_, hu⟩⟩ := hn
  have hneg : off < 0 → 2 ^ 63 ≤ to_size_t off := fun h => to_size_t_of_neg off hoff.1 h
  refine ⟨fun hp h => ?_, fun hp h => ?_, fun hp h => ?_, fun hp h => ?_, fun hp h => ?_,
    fun hp h => ?_⟩
  · refine MainC.my_read_eof g tmp0 path size off _ (MainC.find_file_vram path hp) ?_
    rcases h with h | h
    · exact Or.inl h
    · exact Or.inr (by have := hneg h; omega)
  · refine MainC.my_read_eof g tmp0 path size off _ (MainC.find_file_temp path hp) ?_
    rcases h with h | h
    · exact Or.inl h
    · exact Or.inr (by have := hneg h; omega)
  · refine MainC.my_read_eof g tmp0 path size off _ (MainC.find_file_util path hp) ?_
    rcases h with h | h
    · exact Or.inl h
    · exact Or.inr (by have := hneg h; omega)
  · refine NvfsC.nvfs_read_eof n path _ size off (NvfsC.select_src_vram n path hp) ?_
    rcases h with h | h
    · exact h
    · have := hneg h; omega
  · refine NvfsC.nvfs_read_eof n path _ size off (NvfsC.select_src_temp n path hp) ?_
    rcases h with h | h
    · exact h
    · have := hneg h; omega
  · refine NvfsC.nvfs_read_eof n path _ size off (NvfsC.select_src_util n path hp) ?_
    rcases h with h | h
    · exact h
    · have := hneg h; omega

/-- Witness of C2: the table published from the example poll, read at offset 3
(the length of `/vram`) in main.c and at offset `-1` in nvfs.c. -/
theorem my_read_at_or_past_end_witness :
    (NvfsC.collector_cycle sample_poll NvfsC.gpu).wf ∧
    MainC.my_read (MainC.collector_cycle sample_poll MainC.gpu) [] (bytes "/vram") 4096 3
      = read_eof ∧
    NvfsC.my_read (NvfsC.collector_cycle sample_poll NvfsC.gpu) (bytes "/vram") 4096 (-1)
      = read_eof :=
  have h := my_read_at_or_past_end (MainC.collector_cycle sample_poll MainC.gpu)
    (NvfsC.collector_cycle sample_poll NvfsC.gpu) [] (bytes "/vram") 4096
  ⟨by decide,
   (h 3 (by decide) (by decide)).1 (by decide) (Or.inl (by decide)),
   (h (-1) (by decide) (by decide)).2.2.2.1 (by decide) (Or.inr (by decide))⟩

/-! ## Attributes -/

/-- C3: `my_getattr` of main.c on a virtual file returns 0 and fills `*st` with
the regular-file type, permission bits 0444, link count 1 and the current byte
length of the value as size, every other field zero; the size is the count a
read at offset 0 with a length of at least `BUF_SIZE` returns. -/
theorem main_my_getattr_file (g : MainC.gpu_stats) (path tmp0 : List Nat) (st : stat)
    (size : Nat) (hg : g.wf) (hs : MainC.BUF_SIZE ≤ size) (hs2 : size < 2 ^ 64) :
    (cstr path = bytes "/vram" →
      MainC.my_getattr g path st = (0, { stat.zeroed with
        st_mode := S_IFREG ||| 0o444, st_nlink := 1, st_size := (strlen g.vram : Int) }) ∧
      MainC.my_read g tmp0 path size 0 =
        { ret := (strlen g.vram : Int), ncopy := strlen g.vram, data := cstr g.vram }) ∧
    (cstr path = bytes "/temp" →
      MainC.my_getattr g path st = (0, { stat.zeroed with
        st_mode := S_IFREG ||| 0o444, st_nlink := 1, st_size := (strlen g.temp : Int) }) ∧
      MainC.my_read g tmp0 path size 0 =
        { ret := (strlen g.temp : Int), ncopy := strlen g.temp, data := cstr g.temp }) ∧
    (cstr path = bytes "/util" →
      MainC.my_getattr g path st = (0, { stat.zeroed with
        st_mode := S_IFREG ||| 0o444, st_nlink := 1, st_size := (strlen g.util : Int) }) ∧
      MainC.my_read g tmp0 path size 0 =
        { ret := (strlen g.util : Int), ncopy := strlen g.util, data := cstr g.util }) ∧
    (S_IFREG ||| 0o444) &&& S_IFMT = S_IFREG ∧ (S_IFREG ||| 0o444) &&& 0o7777 = 0o444 := by
  obtain ⟨⟨_, hv⟩, ⟨_, ht⟩, ⟨_, hu⟩⟩ := hg
  have hroot : ∀ p : List Nat, cstr p = bytes "/vram" ∨ cstr p = bytes "/temp" ∨
      cstr p = bytes "/util" → ¬ strcmp p (bytes "/") = 0 := by
    intro p hp h
    rw [strcmp_eq_zero_iff] at h
    rcases hp with hp | hp | hp <;> rw [hp] at h <;> revert h <;> decide
  refine ⟨fun hp => ⟨?_, ?_⟩, fun hp => ⟨?_, ?_⟩, fun hp => ⟨?_, ?_⟩, by decide, by decide⟩
  · simp only [MainC.my_getattr, if_neg (hroot path (Or.inl hp)), MainC.find_file_vram path hp]
  · exact MainC.my_read_full g tmp0 path size _ (MainC.find_file_vram path hp) hv
      (show strlen g.vram ≤ size by have hB : MainC.BUF_SIZE = 16 := rfl; omega) hs2
  · simp only [MainC.my_getattr, if_neg (hroot path (Or.inr (Or.inl hp))),
      MainC.find_file_temp path hp]
  · exact MainC.my_read_full g tmp0 path size _ (MainC.find_file_temp path hp) ht
      (show strlen g.temp ≤ size by have hB : MainC.BUF_SIZE = 16 := rfl; omega) hs2
  · simp only [MainC.my_getattr, if_neg (hroot path (Or.inr (Or.inr hp))),
      MainC.find_file_util path hp]
  · exact MainC.my_read_full g tmp0 path size _ (MainC.find_file_util path hp) hu
      (show strlen g.util ≤ size by have hB : MainC.BUF_SIZE = 16 := rfl; omega) hs2

/-- Witness of C3: the table published from the example poll; `/temp` holds
`65` and a newline, so the size is 3 and a 4096-byte read returns 3 bytes. -/
theorem main_my_getattr_file_witness :
    MainC.my_getattr (MainC.collector_cycle sample_poll MainC.gpu) (bytes "/temp") stat.zeroed
      = (0, { stat.zeroed with st_mode := 0o100444, st_nlink := 1, st_size := 3 }) ∧
    MainC.my_read (MainC.collector_cycle sample_poll MainC.gpu) [] (bytes "/temp") 4096 0
      = { ret := 3, ncopy := 3, data := bytes "65\n" } :=
  (main_my_getattr_file (MainC.collector_cycle sample_poll MainC.gpu) (bytes "/temp") []
    stat.zeroed 4096 (by decide) (by decide) (by decide)).2.1 (by decide)

/-! ## The table of nvfs.c -/

theorem NvfsC.collector_cycle_wf (q : Poll) (n : NvfsC.gpu_stats) (hn : n.wf) :
    (NvfsC.collector_cycle q n).wf := by
  obtain ⟨⟨lv, _⟩, ⟨lt, _⟩, ⟨lu, _⟩⟩ := hn
  refine ⟨⟨?_, ?_⟩, ⟨?_, ?_⟩, ⟨?_, ?_⟩⟩
  · exact length_snprintf _ 8 _ (by decide) lv
  · exact strlen_snprintf_lt _ 8 _ (by decide) (fmt_d_nul_free _)
  · exact length_snprintf _ 8 _ (by decide) lt
  · exact strlen_snprintf_lt _ 8 _ (by decide) (fmt_u_nul_free _)
  · exact length_snprintf _ 8 _ (by decide) lu
  · exact strlen_snprintf_lt _ 8 _ (by decide) (fmt_d_nul_free _)

theorem NvfsC.collector_thread_wf (polls : List Poll) (n : NvfsC.gpu_stats) (hn : n.wf) :
    (NvfsC.collector_thread polls n).wf := by
  induction polls generalizing n with
  | nil => exact hn
  | cons q rest ih => exact ih _ (NvfsC.collector_cycle_wf q n hn)

theorem NvfsC.gpu_wf : NvfsC.gpu.wf := by decide

theorem NvfsC.my_getattr_file (n : NvfsC.gpu_stats) (path : List Nat) (st : stat)
    (hp : cstr path = bytes "/vram" ∨ cstr path = bytes "/temp" ∨ cstr path = bytes "/util") :
    NvfsC.my_getattr n path st =
      (0, { stat.zeroed with st_mode := S_IFREG ||| 0o444, st_nlink := 1, st_size := 8 }) := by
  have hroot : ¬ strcmp path (bytes "/") = 0 := by
    intro h
    rw [strcmp_eq_zero_iff] at h
    rcases hp with hp | hp | hp <;> rw [hp] at h <;> revert h <;> decide
  have hfile : strcmp path NvfsC.PATH_VRAM = 0 ∨ strcmp path NvfsC.PATH_UTIL = 0 ∨
      strcmp path NvfsC.PATH_TEMP = 0 := by
    simp only [strcmp_eq_zero_iff]
    rcases hp with hp | hp | hp
    · exact Or.inl (by rw [hp]; decide)
    · exact Or.inr (Or.inr (by rw [hp]; decide))
    · exact Or.inr (Or.inl (by rw [hp]; decide))
  simp only [NvfsC.my_getattr, if_neg hroot, if_pos hfile]

/-- C4 as it stands fails on the code: after the example poll `/vram` of nvfs.c
holds the two bytes `25`, a 4096-byte read at offset 0 returns 2, and
`my_getattr` reports the size 8. -/
theorem nvfs_my_getattr_size_differs :
    (NvfsC.my_read (NvfsC.collector_thread [sample_poll] NvfsC.gpu) (bytes "/vram") 4096 0).ret
      = 2 ∧
    (NvfsC.my_getattr (NvfsC.collector_thread [sample_poll] NvfsC.gpu) (bytes "/vram")
      stat.zeroed).2.st_size = 8 ∧
    ¬ ((NvfsC.my_getattr (NvfsC.collector_thread [sample_poll] NvfsC.gpu) (bytes "/vram")
        stat.zeroed).2.st_size
      = (NvfsC.my_read (NvfsC.collector_thread [sample_poll] NvfsC.gpu) (bytes "/vram")
        4096 0).ret) := by
  decide

/-- C4, amended: in every table state the collector of nvfs.c reaches,
`my_getattr` reports the size 8, the capacity of the buffer, for each virtual
file, while the content, which is what a read at offset 0 with a length of at
least 8 returns, has at most 7 bytes. -/
theorem nvfs_my_getattr_size_is_capacity (polls : List Poll) (path : List Nat) (st : stat)
    (size : Nat) (hs : 8 ≤ size) (hs2 : size < 2 ^ 64) :
    (cstr path = bytes "/vram" →
      (NvfsC.my_getattr (NvfsC.collector_thread polls NvfsC.gpu) path st).2.st_size = 8 ∧
      NvfsC.my_read (NvfsC.collector_thread polls NvfsC.gpu) path size 0 =
        { ret := (strlen (NvfsC.collector_thread polls NvfsC.gpu).vram : Int),
          ncopy := strlen (NvfsC.collector_thread polls NvfsC.gpu).vram,
          data := cstr (NvfsC.collector_thread polls NvfsC.gpu).vram } ∧
      strlen (NvfsC.collector_thread polls NvfsC.gpu).vram ≤ 7) ∧
    (cstr path = bytes "/temp" →
      (NvfsC.my_getattr (NvfsC.collector_thread polls NvfsC.gpu) path st).2.st_size = 8 ∧
      NvfsC.my_read (NvfsC.collector_thread polls NvfsC.gpu) path size 0 =
        { ret := (strlen (NvfsC.collector_thread polls NvfsC.gpu).temp : Int),
          ncopy := strlen (NvfsC.collector_thread polls NvfsC.gpu).temp,
          data := cstr (NvfsC.collector_thread polls NvfsC.gpu).temp } ∧
      strlen (NvfsC.collector_thread polls NvfsC.gpu).temp ≤ 7) ∧
    (cstr path = bytes "/util" →
      (NvfsC.my_getattr (NvfsC.collector_thread polls NvfsC.gpu) path st).2.st_size = 8 ∧
      NvfsC.my_read (NvfsC.collector_thread polls NvfsC.gpu) path size 0 =
        { ret := (strlen (NvfsC.collector_thread polls NvfsC.gpu).util : Int),
          ncopy := strlen (NvfsC.collector_thread polls NvfsC.gpu).util,
          data := cstr (NvfsC.collector_thread polls NvfsC.gpu).util } ∧
      strlen (NvfsC.collector_thread polls NvfsC.gpu).util ≤ 7) := by
  obtain ⟨⟨lv, hv⟩, ⟨lt, ht⟩, ⟨lu, hu⟩⟩ := NvfsC.collector_thread_wf polls _ NvfsC.gpu_wf
  refine ⟨fun hp => ⟨?_, ?_, by omega⟩, fun hp => ⟨?_, ?_, by omega⟩,
    fun hp => ⟨?_, ?_, by omega⟩⟩
  · rw [NvfsC.my_getattr_file _ path st (Or.inl hp)]
  · exact NvfsC.nvfs_read_full _ path _ size (NvfsC.select_src_vram _ path hp) (by omega) lv
      (by omega) hs2
  · rw [NvfsC.my_getattr_file _ path st (Or.inr (Or.inl hp))]
  · exact NvfsC.nvfs_read_full _ path _ size (NvfsC.select_src_temp _ path hp) (by omega) lt
      (by omega) hs2
  · rw [NvfsC.my_getattr_file _ path st (Or.inr (Or.inr hp))]
  · exact NvfsC.nvfs_read_full _ path _ size (NvfsC.select_src_util _ path hp) (by omega) lu
      (by omega) hs2

/-- Witness of the amended C4: two polls, then `/util` is read with a length of
4096. -/
theorem nvfs_my_getattr_size_is_capacity_witness :
    (NvfsC.my_getattr (NvfsC.collector_thread [zero_total_poll, sample_poll] NvfsC.gpu)
      (bytes "/util") stat.zeroed).2.st_size = 8 ∧
    NvfsC.my_read (NvfsC.collector_thread [zero_total_poll, sample_poll] NvfsC.gpu)
      (bytes "/util") 4096 0 =
        { ret := (strlen (NvfsC.collector_thread [zero_total_poll, sample_poll] NvfsC.gpu).util
            : Int),
          ncopy := strlen (NvfsC.collector_thread [zero_total_poll, sample_poll] NvfsC.gpu).util,
          data := cstr (NvfsC.collector_thread [zero_total_poll, sample_poll] NvfsC.gpu).util } ∧
    strlen (NvfsC.collector_thread [zero_total_poll, sample_poll] NvfsC.gpu).util ≤ 7 :=
  (nvfs_my_getattr_size_is_capacity [zero_total_poll, sample_poll] (bytes "/util") stat.zeroed
    4096 (by decide) (by decide)).2.2 (by decide)

/-! ## The collector -/

/-- C5: a cycle of the collector of main.c in which a query fails, or all
succeed and the total memory is 0, leaves the table as it was, and the loop
goes on with the next iteration from that same table. -/
theorem main_collector_failed_cycle (q : Poll) (g : MainC.gpu_stats)
    (h : (q.memRet ≠ NVML_SUCCESS ∨ q.utilRet ≠ NVML_SUCCESS ∨ q.tempRet ≠ NVML_SUCCESS) ∨
      (q.memRet = NVML_SUCCESS ∧ q.utilRet = NVML_SUCCESS ∧ q.tempRet = NVML_SUCCESS ∧
        q.mem.total = 0)) :
    MainC.collector_cycle q g = g ∧
    ∀ rest : List (Bool × Poll),
      MainC.collector_thread ((true, q) :: rest) g = MainC.collector_thread rest g := by
  have hc : MainC.collector_cycle q g = g := by
    unfold MainC.collector_cycle
    rcases h with h | ⟨_, _, _, h⟩
    · rw [if_pos h]
    · split_ifs <;> rfl
  refine ⟨hc, fun rest => ?_⟩
  simp only [MainC.collector_thread, hc, if_true]

/-- Witness of C5: the total memory is reported as 0 after the example poll was
published; a failed memory query behaves the same. -/
theorem main_collector_failed_cycle_witness :
    (MainC.collector_cycle zero_total_poll (MainC.collector_cycle sample_poll MainC.gpu)
      = MainC.collector_cycle sample_poll MainC.gpu ∧
    ∀ rest : List (Bool × Poll),
      MainC.collector_thread ((true, zero_total_poll) :: rest)
        (MainC.collector_cycle sample_poll MainC.gpu)
      = MainC.collector_thread rest (MainC.collector_cycle sample_poll MainC.gpu)) ∧
    MainC.collector_cycle failed_memory_poll (MainC.collector_cycle sample_poll MainC.gpu)
      = MainC.collector_cycle sample_poll MainC.gpu :=
  ⟨main_collector_failed_cycle zero_total_poll (MainC.collector_cycle sample_poll MainC.gpu)
    (Or.inr (by decide)),
   (main_collector_failed_cycle failed_memory_poll (MainC.collector_cycle sample_poll MainC.gpu)
    (Or.inl (by decide))).1⟩

/-- C6 as it stands fails on the code: after the example poll was published by
nvfs.c (`vram` holds `25`, `temp` holds `65`), a cycle whose total memory is 0
replaces the `vram` value by `0`, and a cycle whose memory query fails while
the temperature reads 70 rewrites `temp`. -/
theorem nvfs_collector_cycle_mutates :
    cstr (NvfsC.collector_cycle sample_poll NvfsC.gpu).vram = bytes "25" ∧
    cstr (NvfsC.collector_cycle zero_total_poll
      (NvfsC.collector_cycle sample_poll NvfsC.gpu)).vram = bytes "0" ∧
    ¬ (cstr (NvfsC.collector_cycle zero_total_poll
        (NvfsC.collector_cycle sample_poll NvfsC.gpu)).vram
      = cstr (NvfsC.collector_cycle sample_poll NvfsC.gpu).vram) ∧
    failed_memory_poll.memRet ≠ NVML_SUCCESS ∧
    ¬ (NvfsC.collector_cycle failed_memory_poll (NvfsC.collector_cycle sample_poll NvfsC.gpu)
      = NvfsC.collector_cycle sample_poll NvfsC.gpu) := by
  decide

/-- C6, amended: a cycle of the collector of nvfs.c does not read the return
codes of the queries; it overwrites the three entries with the decimal text,
cut to 7 bytes, of what the output variables hold, and when the total memory is
0 the published `vram` value is `0`. -/
theorem nvfs_collector_cycle_publishes (q : Poll) (n : NvfsC.gpu_stats) :
    (q.mem.total = 0 → cstr (NvfsC.collector_cycle q n).vram = bytes "0") ∧
    (∀ r1 r2 r3 : Nat, NvfsC.collector_cycle
        { q with memRet := r1, utilRet := r2, tempRet := r3 } n = NvfsC.collector_cycle q n) ∧
    cstr (NvfsC.collector_cycle q n).vram = (fmt_d (NvfsC.vram_perc q.mem)).take 7 ∧
    cstr (NvfsC.collector_cycle q n).util = (fmt_d (to_int q.util.gpu)).take 7 ∧
    cstr (NvfsC.collector_cycle q n).temp = (fmt_u q.temp).take 7 := by
  have hv : cstr (NvfsC.collector_cycle q n).vram = (fmt_d (NvfsC.vram_perc q.mem)).take 7 :=
    cstr_snprintf _ 8 _ (by decide) (fmt_d_nul_free _)
  refine ⟨fun h0 => ?_, fun _ _ _ => rfl, hv,
    cstr_snprintf _ 8 _ (by decide) (fmt_d_nul_free _),
    cstr_snprintf _ 8 _ (by decide) (fmt_u_nul_free _)⟩
  have hp : NvfsC.vram_perc q.mem = 0 := by
    unfold NvfsC.vram_perc
    rw [if_neg (by simp [h0])]
  rw [hv, hp]
  decide

/-- Witness of the amended C6: the total memory is reported as 0 after the
example poll was published. -/
theorem nvfs_collector_cycle_publishes_witness :
    zero_total_poll.mem.total = 0 ∧
    cstr (NvfsC.collector_cycle zero_total_poll
      (NvfsC.collector_cycle sample_poll NvfsC.gpu)).vram = bytes "0" :=
  ⟨by decide,
   (nvfs_collector_cycle_publishes zero_total_poll
    (NvfsC.collector_cycle sample_poll NvfsC.gpu)).1 (by decide)⟩

/-! ## What a successful cycle of main.c publishes -/

theorem MainC.percent_le (mem : nvmlMemory_t) (h0 : mem.total ≠ 0) (h : mem.used ≤ mem.total) :
    mem.used * 100 % 2 ^ 64 / mem.total ≤ 100 := by
  calc mem.used * 100 % 2 ^ 64 / mem.total
      ≤ mem.used * 100 / mem.total := Nat.div_le_div_right (Nat.mod_le _ _)
    _ ≤ mem.total * 100 / mem.total := Nat.div_le_div_right (Nat.mul_le_mul_right 100 h)
    _ = 100 := Nat.mul_div_cancel_left 100 (Nat.pos_of_ne_zero h0)

theorem MainC.vram_perc_eq (mem : nvmlMemory_t) (h0 : mem.total ≠ 0) (h : mem.used ≤ mem.total) :
    MainC.vram_perc mem = ((mem.used * 100 % 2 ^ 64 / mem.total : Nat) : Int) := by
  unfold MainC.vram_perc
  exact to_int_of_lt _ (by have := MainC.percent_le mem h0 h; omega)

theorem fmt_d_of_nat (n : Nat) : fmt_d (n : Int) = fmt_u n := by
  unfold fmt_d
  rw [if_neg (by omega)]
  simp

theorem cstr_snprintf_line (dst ds : List Nat) (hd : ∀ b ∈ ds, b ≠ 0) (hl : ds.length ≤ 14) :
    cstr (snprintf dst MainC.BUF_SIZE (ds ++ [10])) = ds ++ [10] := by
  rw [cstr_snprintf dst MainC.BUF_SIZE (ds ++ [10]) (by decide)]
  · exact List.take_of_length_le (by simp [MainC.BUF_SIZE]; omega)
  · intro b hb
    rcases List.mem_append.1 hb with h | h
    · exact hd b h
    · simp at h; omega

theorem MainC.collector_cycle_ok (q : Poll) (g : MainC.gpu_stats) (hok : q.ok) :
    MainC.collector_cycle q g =
      { vram := snprintf g.vram MainC.BUF_SIZE (fmt_d (MainC.vram_perc q.mem) ++ [10])
        util := snprintf g.util MainC.BUF_SIZE (fmt_u q.util.gpu ++ [10])
        temp := snprintf g.temp MainC.BUF_SIZE (fmt_u q.temp ++ [10]) } := by
  obtain ⟨h1, h2, h3, h4⟩ := hok
  unfold MainC.collector_cycle
  rw [if_neg (by simp [h1, h2, h3]), if_neg h4]

theorem MainC.collector_cycle_publishes (q : Poll) (g : MainC.gpu_stats) (hok : q.ok)
    (hr : q.in_range) :
    cstr (MainC.collector_cycle q g).vram = fmt_d (MainC.vram_perc q.mem) ++ [10] ∧
    cstr (MainC.collector_cycle q g).util = fmt_u q.util.gpu ++ [10] ∧
    cstr (MainC.collector_cycle q g).temp = fmt_u q.temp ++ [10] := by
  obtain ⟨hu, _, hg, ht⟩ := hr
  rw [MainC.collector_cycle_ok q g hok]
  refine ⟨?_, ?_, ?_⟩
  · rw [MainC.vram_perc_eq q.mem hok.2.2.2 hu, fmt_d_of_nat]
    refine cstr_snprintf_line _ _ (fmt_u_nul_free _) ?_
    have := fmt_u_length_le (q.mem.used * 100 % 2 ^ 64 / q.mem.total) 3 (by norm_num)
      (by have := MainC.percent_le q.mem hok.2.2.2 hu; omega)
    omega
  · refine cstr_snprintf_line _ _ (fmt_u_nul_free _) ?_
    have := fmt_u_length_le q.util.gpu 10 (by norm_num) (by omega)
    omega
  · refine cstr_snprintf_line _ _ (fmt_u_nul_free _) ?_
    have := fmt_u_length_le q.temp 10 (by norm_num) (by omega)
    omega

theorem metric_text_fmt_u (n : Nat) : metric_text (fmt_u n ++ [10]) := by
  refine ⟨by simp, ?_, ?_⟩
  · rw [List.dropLast_concat]; exact fmt_u_ne_nil n
  · rw [List.dropLast_concat]; exact fmt_u_digit n

theorem strlen_fmt_u_line (n : Nat) (h : n < 2 ^ 32) : (fmt_u n ++ [10]).length < 16 := by
  have := fmt_u_length_le n 10 (by norm_num) (by omega)
  simp only [List.length_append, List.length_singleton]
  omega

/-- The table holds the complete formatted lines of one publishing poll. -/
theorem MainC.published_of_polls (polls : List Poll) (g0 : MainC.gpu_stats)
    (hrange : ∀ q ∈ polls, q.ok → q.in_range)
    (h : (∃ q : Poll, q.ok ∧ q.in_range ∧
        cstr g0.vram = fmt_d (MainC.vram_perc q.mem) ++ [10] ∧
        cstr g0.util = fmt_u q.util.gpu ++ [10] ∧
        cstr g0.temp = fmt_u q.temp ++ [10]) ∨ ∃ q ∈ polls, q.ok) :
    ∃ q : Poll, q.ok ∧ q.in_range ∧
      cstr (MainC.collector_thread (polls.map (fun q => (true, q))) g0).vram
        = fmt_d (MainC.vram_perc q.mem) ++ [10] ∧
      cstr (MainC.collector_thread (polls.map (fun q => (true, q))) g0).util
        = fmt_u q.util.gpu ++ [10] ∧
      cstr (MainC.collector_thread (polls.map (fun q => (true, q))) g0).temp
        = fmt_u q.temp ++ [10] := by
  induction polls generalizing g0 with
  | nil =>
    rcases h with h | ⟨q, hq, _⟩
    · exact h
    · simp at hq
  | cons p rest ih =>
    have hrest : ∀ q ∈ rest, q.ok → q.in_range := fun q hq => hrange q (by simp [hq])
    simp only [List.map_cons, MainC.collector_thread, if_true]
    apply ih _ hrest
    by_cases hp : p.ok
    · exact Or.inl ⟨p, hp, hrange p (by simp) hp,
        MainC.collector_cycle_publishes p g0 hp (hrange p (by simp) hp)⟩
    · have hsame : MainC.collector_cycle p g0 = g0 := by
        unfold MainC.collector_cycle
        unfold Poll.ok at hp
        split_ifs with a b
        · rfl
        · rfl
        · exfalso
          apply hp
          simp only [not_or, not_not] at a
          exact ⟨a.1, a.2.1, a.2.2, b⟩
      rw [hsame]
      rcases h with h | ⟨q, hq, hqok⟩
      · exact Or.inl h
      · rcases List.mem_cons.1 hq with e | e
        · exact absurd (e ▸ hqok) hp
        · exact Or.inr ⟨q, e, hqok⟩

/-- C7, evaluated where the code leaves the claim. With `used = total = 2 ^ 63`
and every query successful the product `used * 100` wraps to 0 in 64 bits, so
the cycle publishes `0` and a newline in `vram`; the quotient over the exact
integers is 100. -/
theorem main_vram_percent_wraps :
    wrap_poll.ok ∧ wrap_poll.in_range ∧
    wrap_poll.mem.used * 100 % 2 ^ 64 = 0 ∧
    cstr (MainC.collector_cycle wrap_poll MainC.gpu).vram = bytes "0\n" ∧
    fmt_u (wrap_poll.mem.used * 100 / wrap_poll.mem.total) ++ [10] = bytes "100\n" ∧
    cstr (MainC.collector_cycle wrap_poll MainC.gpu).vram
      ≠ fmt_u (wrap_poll.mem.used * 100 / wrap_poll.mem.total) ++ [10] := by
  decide

/-- The part of C7 the code keeps: when `used * 100` fits 64 bits, a successful
cycle publishes the decimal of the exact quotient, of the utilisation and of
the temperature, each followed by a newline. -/
theorem main_collector_cycle_exact (q : Poll) (g : MainC.gpu_stats) (hok : q.ok)
    (hr : q.in_range) (hfit : q.mem.used * 100 < 2 ^ 64) :
    cstr (MainC.collector_cycle q g).vram = fmt_u (q.mem.used * 100 / q.mem.total) ++ [10] ∧
    cstr (MainC.collector_cycle q g).util = fmt_u q.util.gpu ++ [10] ∧
    cstr (MainC.collector_cycle q g).temp = fmt_u q.temp ++ [10] := by
  obtain ⟨hv, hu, ht⟩ := MainC.collector_cycle_publishes q g hok hr
  refine ⟨?_, hu, ht⟩
  rw [hv, MainC.vram_perc_eq q.mem hok.2.2.2 hr.1, fmt_d_of_nat, Nat.mod_eq_of_lt hfit]

/-- The example of the specification: 2 GiB of 8 GiB, 37 percent, 65 degrees. -/
theorem main_collector_cycle_example :
    cstr (MainC.collector_cycle sample_poll MainC.gpu).vram = bytes "25\n" ∧
    cstr (MainC.collector_cycle sample_poll MainC.gpu).util = bytes "37\n" ∧
    cstr (MainC.collector_cycle sample_poll MainC.gpu).temp = bytes "65\n" ∧
    MainC.my_read (MainC.collector_cycle sample_poll MainC.gpu) [] (bytes "/vram") 4096 0
      = { ret := 3, ncopy := 3, data := bytes "25\n" } ∧
    MainC.my_read (MainC.collector_cycle sample_poll MainC.gpu) [] (bytes "/util") 4096 0
      = { ret := 3, ncopy := 3, data := bytes "37\n" } ∧
    MainC.my_read (MainC.collector_cycle sample_poll MainC.gpu) [] (bytes "/temp") 4096 0
      = { ret := 3, ncopy := 3, data := bytes "65\n" } := by
  decide

/-- C8: once a cycle of main.c has published, and as long as the publishing
polls have `used <= total` and 32-bit utilisation and temperature, each of the
three values is the complete line some publishing poll formatted (nothing was
cut by the 16-byte buffer), it consists of one or more decimal digits and one
final newline, and a read of its full length, or of any larger one, returns
exactly it. -/
theorem main_published_values_well_formed (polls : List Poll) (g0 : MainC.gpu_stats)
    (tmp0 : List Nat) (hrange : ∀ q ∈ polls, q.ok → q.in_range) (hone : ∃ q ∈ polls, q.ok) :
    (∃ q : Poll, q.ok ∧ q.in_range ∧
      cstr (MainC.collector_thread (polls.map (fun q => (true, q))) g0).vram
        = fmt_d (MainC.vram_perc q.mem) ++ [10] ∧
      cstr (MainC.collector_thread (polls.map (fun q => (true, q))) g0).util
        = fmt_u q.util.gpu ++ [10] ∧
      cstr (MainC.collector_thread (polls.map (fun q => (true, q))) g0).temp
        = fmt_u q.temp ++ [10]) ∧
    metric_text (cstr (MainC.collector_thread (polls.map (fun q => (true, q))) g0).vram) ∧
    metric_text (cstr (MainC.collector_thread (polls.map (fun q => (true, q))) g0).temp) ∧
    metric_text (cstr (MainC.collector_thread (polls.map (fun q => (true, q))) g0).util) ∧
    (∀ size : Nat,
      strlen (MainC.collector_thread (polls.map (fun q => (true, q))) g0).vram ≤ size →
      size < 2 ^ 64 →
      (MainC.my_read (MainC.collector_thread (polls.map (fun q => (true, q))) g0) tmp0
        (bytes "/vram") size 0).data
        = cstr (MainC.collector_thread (polls.map (fun q => (true, q))) g0).vram) ∧
    (∀ size : Nat,
      strlen (MainC.collector_thread (polls.map (fun q => (true, q))) g0).temp ≤ size →
      size < 2 ^ 64 →
      (MainC.my_read (MainC.collector_thread (polls.map (fun q => (true, q))) g0) tmp0
        (bytes "/temp") size 0).data
        = cstr (MainC.collector_thread (polls.map (fun q => (true, q))) g0).temp) ∧
    (∀ size : Nat,
      strlen (MainC.collector_thread (polls.map (fun q => (true, q))) g0).util ≤ size →
      size < 2 ^ 64 →
      (MainC.my_read (MainC.collector_thread (polls.map (fun q => (true, q))) g0) tmp0
        (bytes "/util") size 0).data
        = cstr (MainC.collector_thread (polls.map (fun q => (true, q))) g0).util) := by
  obtain ⟨q, hok, hr, hv, hu, ht⟩ := MainC.published_of_polls polls g0 hrange (Or.inr hone)
  have hpe := MainC.vram_perc_eq q.mem hok.2.2.2 hr.1
  have hple := MainC.percent_le q.mem hok.2.2.2 hr.1
  have lv : strlen (MainC.collector_thread (polls.map (fun q => (true, q))) g0).vram
      < MainC.BUF_SIZE := by
    unfold strlen
    rw [hv, hpe, fmt_d_of_nat]
    exact strlen_fmt_u_line _ (by omega)
  have lu : strlen (MainC.collector_thread (polls.map (fun q => (true, q))) g0).util
      < MainC.BUF_SIZE := by
    unfold strlen
    rw [hu]
    exact strlen_fmt_u_line _ hr.2.2.1
  have lt : strlen (MainC.collector_thread (polls.map (fun q => (true, q))) g0).temp
      < MainC.BUF_SIZE := by
    unfold strlen
    rw [ht]
    exact strlen_fmt_u_line _ hr.2.2.2
  refine ⟨⟨q, hok, hr, hv, hu, ht⟩, ?_, ?_, ?_, ?_, ?_, ?_⟩
  · rw [hv, hpe, fmt_d_of_nat]; exact metric_text_fmt_u _
  · rw [ht]; exact metric_text_fmt_u _
  · rw [hu]; exact metric_text_fmt_u _
  · intro size hs hs2
    rw [MainC.my_read_full _ tmp0 _ size _ (MainC.find_file_vram _ (by decide)) lv hs hs2]
  · intro size hs hs2
    rw [MainC.my_read_full _ tmp0 _ size _ (MainC.find_file_temp _ (by decide)) lt hs hs2]
  · intro size hs hs2
    rw [MainC.my_read_full _ tmp0 _ size _ (MainC.find_file_util _ (by decide)) lu hs hs2]

/-- Witness of C8: from the initial table, a cycle with total memory 0, the
example poll, then a failed memory query. -/
theorem main_published_values_well_formed_witness :
    metric_text (cstr (MainC.collector_thread
      ([zero_total_poll, sample_poll, failed_memory_poll].map (fun q => (true, q)))
      MainC.gpu).vram) ∧
    cstr (MainC.collector_thread
      ([zero_total_poll, sample_poll, failed_memory_poll].map (fun q => (true, q)))
      MainC.gpu).vram = bytes "25\n" :=
  ⟨(main_published_values_well_formed [zero_total_poll, sample_poll, failed_memory_poll]
    MainC.gpu [] (by decide) (by decide)).2.1, by decide⟩

/-- C9: in a publishing cycle of main.c with `used <= total`, whatever the
64-bit values are and whether or not `used * 100` wraps, the integer printed
into `vram` lies between 0 and 100. -/
theorem main_vram_percent_range (q : Poll) (g : MainC.gpu_stats) (hok : q.ok)
    (hu : q.mem.used ≤ q.mem.total) :
    0 ≤ MainC.vram_perc q.mem ∧ MainC.vram_perc q.mem ≤ 100 ∧
    (MainC.collector_cycle q g).vram
      = snprintf g.vram MainC.BUF_SIZE (fmt_d (MainC.vram_perc q.mem) ++ [10]) ∧
    cstr (MainC.collector_cycle q g).vram = fmt_d (MainC.vram_perc q.mem) ++ [10] := by
  have hpe := MainC.vram_perc_eq q.mem hok.2.2.2 hu
  have hple := MainC.percent_le q.mem hok.2.2.2 hu
  refine ⟨by rw [hpe]; exact Int.natCast_nonneg _, by rw [hpe]; exact_mod_cast hple,
    by rw [MainC.collector_cycle_ok q g hok], ?_⟩
  rw [MainC.collector_cycle_ok q g hok, hpe, fmt_d_of_nat]
  refine cstr_snprintf_line _ _ (fmt_u_nul_free _) ?_
  have := fmt_u_length_le (q.mem.used * 100 % 2 ^ 64 / q.mem.total) 3 (by norm_num) (by omega)
  omega

/-- Witness of C9: `used = total = 2 ^ 63`, where the product wraps. -/
theorem main_vram_percent_range_witness :
    wrap_poll.mem.used * 100 ≥ 2 ^ 64 ∧
    0 ≤ MainC.vram_perc wrap_poll.mem ∧ MainC.vram_perc wrap_poll.mem ≤ 100 :=
  have h := main_vram_percent_range wrap_poll MainC.gpu (by decide) (by decide)
  ⟨by decide, h.1, h.2.1⟩

/-! ## Open -/

/-- C10: `my_open` of main.c returns 0 exactly when the string of the path is
`/vram`, `/temp` or `/util`, and `-ENOENT` for every other path; the function
takes no table and returns none, as the source neither reads nor writes it. -/
theorem main_my_open_iff (path : List Nat) :
    (MainC.my_open path = 0 ↔
      cstr path = bytes "/vram" ∨ cstr path = bytes "/temp" ∨ cstr path = bytes "/util") ∧
    (MainC.my_open path = 0 ∨ MainC.my_open path = -ENOENT) ∧
    MainC.my_open (bytes "") = -ENOENT ∧
    MainC.my_open (bytes "/") = -ENOENT ∧
    MainC.my_open (bytes "vram") = -ENOENT ∧
    MainC.my_open (bytes "/vram/") = -ENOENT ∧
    MainC.my_open (bytes "/vramx") = -ENOENT ∧
    MainC.my_open (bytes "/gpu/vram") = -ENOENT ∧
    MainC.my_open (bytes "/VRAM") = -ENOENT := by
  refine ⟨?_, ?_, by decide, by decide, by decide, by decide, by decide, by decide, by decide⟩
  · constructor
    · intro h
      by_contra hne
      simp only [not_or] at hne
      rw [MainC.my_open, MainC.find_file_none path hne.1 hne.2.1 hne.2.2] at h
      revert h
      decide
    · rintro (h | h | h)
      · simp [MainC.my_open, MainC.find_file_vram path h]
      · simp [MainC.my_open, MainC.find_file_temp path h]
      · simp [MainC.my_open, MainC.find_file_util path h]
  · unfold MainC.my_open
    split_ifs
    · exact Or.inl rfl
    · exact Or.inr rfl

/-! ## Directory listing -/

theorem strcmp_root_iff (path : List Nat) : strcmp path (bytes "/") = 0 ↔ cstr path = bytes "/" := by
  rw [strcmp_eq_zero_iff]
  have e : cstr (bytes "/") = bytes "/" := by decide
  rw [e]

/-- C11: in both programs `my_readdir` on a path whose string is `/` returns 0
and hands `filler` the five names `.`, `..`, `vram`, `temp`, `util` in that
order; on every other path it returns `-ENOENT` and hands it nothing. The
function takes no table, so the result is the same in every table state. -/
theorem my_readdir_root_only (path : List Nat) :
    MainC.my_readdir path =
      (if cstr path = bytes "/" then
        (0, [bytes ".", bytes "..", bytes "vram", bytes "temp", bytes "util"])
      else (-ENOENT, [])) ∧
    NvfsC.my_readdir path =
      (if cstr path = bytes "/" then
        (0, [bytes ".", bytes "..", bytes "vram", bytes "temp", bytes "util"])
      else (-ENOENT, [])) := by
  by_cases h : cstr path = bytes "/"
  · have h0 : strcmp path (bytes "/") = 0 := (strcmp_root_iff path).2 h
    refine ⟨?_, ?_⟩
    · simp only [MainC.my_readdir, h0, ne_eq, not_true_eq_false, if_false, if_pos h]
      rfl
    · simp only [NvfsC.my_readdir, h0, ne_eq, not_true_eq_false, if_false, if_pos h]
  · have h0 : strcmp path (bytes "/") ≠ 0 := fun e => h ((strcmp_root_iff path).1 e)
    refine ⟨?_, ?_⟩
    · simp only [MainC.my_readdir, if_pos h0, if_neg h]
    · simp only [NvfsC.my_readdir, if_pos h0, if_neg h]

/-! ## Attributes of the root and of unknown paths -/

theorem NvfsC.select_src_none (n : NvfsC.gpu_stats) (path : List Nat)
    (hv : cstr path ≠ bytes "/vram") (ht : cstr path ≠ bytes "/temp")
    (hu : cstr path ≠ bytes "/util") : NvfsC.select_src n path = none := by
  have e1 : ¬ strcmp path NvfsC.PATH_VRAM = 0 := by
    rw [strcmp_eq_zero_iff]; intro h; exact hv (h.trans (by decide))
  have e2 : ¬ strcmp path NvfsC.PATH_TEMP = 0 := by
    rw [strcmp_eq_zero_iff]; intro h; exact ht (h.trans (by decide))
  have e3 : ¬ strcmp path NvfsC.PATH_UTIL = 0 := by
    rw [strcmp_eq_zero_iff]; intro h; exact hu (h.trans (by decide))
  simp [NvfsC.select_src, e1, e2, e3]

theorem NvfsC.nvfs_getattr_unknown (n : NvfsC.gpu_stats) (path : List Nat) (st : stat)
    (hr : cstr path ≠ bytes "/") (hv : cstr path ≠ bytes "/vram")
    (ht : cstr path ≠ bytes "/temp") (hu : cstr path ≠ bytes "/util") :
    NvfsC.my_getattr n path st = (-ENOENT, stat.zeroed) := by
  have e0 : ¬ strcmp path (bytes "/") = 0 := fun e => hr ((strcmp_root_iff path).1 e)
  have e1 : ¬ strcmp path NvfsC.PATH_VRAM = 0 := by
    rw [strcmp_eq_zero_iff]; intro h; exact hv (h.trans (by decide))
  have e2 : ¬ strcmp path NvfsC.PATH_TEMP = 0 := by
    rw [strcmp_eq_zero_iff]; intro h; exact ht (h.trans (by decide))
  have e3 : ¬ strcmp path NvfsC.PATH_UTIL = 0 := by
    rw [strcmp_eq_zero_iff]; intro h; exact hu (h.trans (by decide))
  simp [NvfsC.my_getattr, e0, e1, e2, e3]

theorem MainC.my_getattr_unknown (g : MainC.gpu_stats) (path : List Nat) (st : stat)
    (hr : cstr path ≠ bytes "/") (hv : cstr path ≠ bytes "/vram")
    (ht : cstr path ≠ bytes "/temp") (hu : cstr path ≠ bytes "/util") :
    MainC.my_getattr g path st = (-ENOENT, stat.zeroed) := by
  have e0 : ¬ strcmp path (bytes "/") = 0 := fun e => hr ((strcmp_root_iff path).1 e)
  simp only [MainC.my_getattr, if_neg e0, MainC.find_file_none path hv ht hu]

/-- C12 as it stands fails on the code: the mode both programs give the root
is `S_IFDIR | 0755`, in which the write bit of the owner is set. -/
theorem my_getattr_root_owner_writable :
    (MainC.my_getattr MainC.gpu (bytes "/") stat.zeroed).2.st_mode &&& 0o222 = 0o200 ∧
    (NvfsC.my_getattr NvfsC.gpu (bytes "/") stat.zeroed).2.st_mode &&& 0o222 = 0o200 ∧
    ¬ ((MainC.my_getattr MainC.gpu (bytes "/") stat.zeroed).2.st_mode &&& 0o222 = 0) ∧
    ¬ ((NvfsC.my_getattr NvfsC.gpu (bytes "/") stat.zeroed).2.st_mode &&& 0o222 = 0) := by
  decide

/-- C12, amended: in both programs `my_getattr` on a path whose string is `/`
returns 0 with the directory type, link count 2 and the permission bits 0755,
that is read and execute for owner, group and other and write for the owner
only; on a path that is neither `/` nor a virtual file it returns `-ENOENT`. -/
theorem my_getattr_root (g : MainC.gpu_stats) (n : NvfsC.gpu_stats) (path : List Nat)
    (st : stat) :
    (cstr path = bytes "/" →
      MainC.my_getattr g path st =
        (0, { stat.zeroed with st_mode := S_IFDIR ||| 0o755, st_nlink := 2 }) ∧
      NvfsC.my_getattr n path st =
        (0, { stat.zeroed with st_mode := S_IFDIR ||| 0o755, st_nlink := 2 })) ∧
    (cstr path ≠ bytes "/" → cstr path ≠ bytes "/vram" → cstr path ≠ bytes "/temp" →
      cstr path ≠ bytes "/util" →
      (MainC.my_getattr g path st).1 = -ENOENT ∧ (NvfsC.my_getattr n path st).1 = -ENOENT) ∧
    (S_IFDIR ||| 0o755) &&& S_IFMT = S_IFDIR ∧
    (S_IFDIR ||| 0o755) &&& 0o7777 = 0o755 ∧
    (S_IFDIR ||| 0o755) &&& 0o555 = 0o555 ∧
    (S_IFDIR ||| 0o755) &&& 0o222 = 0o200 := by
  refine ⟨fun h => ?_, fun hr hv ht hu => ?_, by decide, by decide, by decide, by decide⟩
  · have h0 : strcmp path (bytes "/") = 0 := (strcmp_root_iff path).2 h
    exact ⟨by simp only [MainC.my_getattr, h0, if_true],
      by simp only [NvfsC.my_getattr, h0, if_true]⟩
  · rw [MainC.my_getattr_unknown g path st hr hv ht hu,
      NvfsC.nvfs_getattr_unknown n path st hr hv ht hu]
    exact ⟨rfl, rfl⟩

/-- Witness of the amended C12: the root after the example poll, and the path
`/vram/x`. -/
theorem my_getattr_root_witness :
    (MainC.my_getattr (MainC.collector_cycle sample_poll MainC.gpu) (bytes "/") stat.zeroed =
        (0, { stat.zeroed with st_mode := 0o40755, st_nlink := 2 }) ∧
      NvfsC.my_getattr (NvfsC.collector_cycle sample_poll NvfsC.gpu) (bytes "/") stat.zeroed =
        (0, { stat.zeroed with st_mode := 0o40755, st_nlink := 2 })) ∧
    ((MainC.my_getattr MainC.gpu (bytes "/vram/x") stat.zeroed).1 = -ENOENT ∧
      (NvfsC.my_getattr NvfsC.gpu (bytes "/vram/x") stat.zeroed).1 = -ENOENT) :=
  ⟨(my_getattr_root (MainC.collector_cycle sample_poll MainC.gpu)
      (NvfsC.collector_cycle sample_poll NvfsC.gpu) (bytes "/") stat.zeroed).1 (by decide),
   (my_getattr_root MainC.gpu NvfsC.gpu (bytes "/vram/x") stat.zeroed).2.1
      (by decide) (by decide) (by decide) (by decide)⟩

/-! ## The table before the first publish -/

theorem MainC.getattr_resolved (g : MainC.gpu_stats) (path : List Nat) (st : stat)
    (hp : cstr path = bytes "/vram" ∨ cstr path = bytes "/temp" ∨ cstr path = bytes "/util") :
    MainC.my_getattr g path st =
      match MainC.find_file path with
      | none => (-ENOENT, stat.zeroed)
      | some f => (0, { stat.zeroed with st_size := (strlen (f.buf g) : Int),
                                         st_mode := S_IFREG ||| 0o444, st_nlink := 1 }) := by
  have hroot : ¬ strcmp path (bytes "/") = 0 := by
    intro h
    rw [strcmp_eq_zero_iff] at h
    rcases hp with hp | hp | hp <;> rw [hp] at h <;> revert h <;> decide
  simp only [MainC.my_getattr, if_neg hroot]


theorem MainC.collector_cycle_not_ok (q : Poll) (g : MainC.gpu_stats) (h : ¬ q.ok) :
    MainC.collector_cycle q g = g := by
  unfold MainC.collector_cycle
  unfold Poll.ok at h
  split_ifs with a b
  · rfl
  · rfl
  · exfalso
    apply h
    simp only [not_or, not_not] at a
    exact ⟨a.1, a.2.1, a.2.2, b⟩

theorem MainC.collector_thread_not_ok (its : List (Bool × Poll)) (g : MainC.gpu_stats)
    (h : ∀ it ∈ its, ¬ it.2.ok) : MainC.collector_thread its g = g := by
  induction its with
  | nil => rfl
  | cons it rest ih =>
    obtain ⟨running, q⟩ := it
    have hq : ¬ q.ok := h (running, q) (by simp)
    have hrest : ∀ it ∈ rest, ¬ it.2.ok := fun it hit => h it (by simp [hit])
    simp only [MainC.collector_thread, MainC.collector_cycle_not_ok q g hq, ih hrest]
    split_ifs <;> rfl

/-- C13: from the initial table of main.c, after any number of cycles none of
which publishes, the table is still the initial one, each of the three values
is empty, `my_getattr` reports the size 0 for each virtual file and `my_read`
returns 0 and copies nothing for every offset and every length. -/
theorem main_initial_table_empty (its : List (Bool × Poll)) (path tmp0 : List Nat) (st : stat)
    (size : Nat) (off : Int) (hfail : ∀ it ∈ its, ¬ it.2.ok)
    (hp : cstr path = bytes "/vram" ∨ cstr path = bytes "/temp" ∨ cstr path = bytes "/util") :
    MainC.collector_thread its MainC.gpu = MainC.gpu ∧
    cstr (MainC.collector_thread its MainC.gpu).vram = [] ∧
    cstr (MainC.collector_thread its MainC.gpu).temp = [] ∧
    cstr (MainC.collector_thread its MainC.gpu).util = [] ∧
    MainC.my_getattr (MainC.collector_thread its MainC.gpu) path st =
      (0, { stat.zeroed with st_mode := S_IFREG ||| 0o444, st_nlink := 1, st_size := 0 }) ∧
    MainC.my_read (MainC.collector_thread its MainC.gpu) tmp0 path size off = read_eof := by
  rw [MainC.collector_thread_not_ok its MainC.gpu hfail]
  have hv : strlen MainC.gpu.vram = 0 := by decide
  have ht : strlen MainC.gpu.temp = 0 := by decide
  have hu : strlen MainC.gpu.util = 0 := by decide
  refine ⟨rfl, by decide, by decide, by decide, ?_, ?_⟩
  · have h := MainC.getattr_resolved MainC.gpu path st hp
    rcases hp with hp | hp | hp
    · rw [h, MainC.find_file_vram path hp]; rfl
    · rw [h, MainC.find_file_temp path hp]; rfl
    · rw [h, MainC.find_file_util path hp]; rfl
  · rcases hp with hp | hp | hp
    · exact MainC.my_read_eof _ tmp0 path size off _ (MainC.find_file_vram path hp)
        (Or.inl (by show strlen MainC.gpu.vram ≤ _; omega))
    · exact MainC.my_read_eof _ tmp0 path size off _ (MainC.find_file_temp path hp)
        (Or.inl (by show strlen MainC.gpu.temp ≤ _; omega))
    · exact MainC.my_read_eof _ tmp0 path size off _ (MainC.find_file_util path hp)
        (Or.inl (by show strlen MainC.gpu.util ≤ _; omega))

/-- Witness of C13: a failed memory query and a poll with total memory 0, then
`/temp` read at offset 5 with length 4096. -/
theorem main_initial_table_empty_witness :
    MainC.my_getattr
      (MainC.collector_thread [(true, failed_memory_poll), (true, zero_total_poll)] MainC.gpu)
      (bytes "/temp") stat.zeroed =
      (0, { stat.zeroed with st_mode := S_IFREG ||| 0o444, st_nlink := 1, st_size := 0 }) ∧
    MainC.my_read
      (MainC.collector_thread [(true, failed_memory_poll), (true, zero_total_poll)] MainC.gpu)
      [] (bytes "/temp") 4096 5 = read_eof :=
  (main_initial_table_empty [(true, failed_memory_poll), (true, zero_total_poll)]
    (bytes "/temp") [] stat.zeroed 4096 5 (by decide) (by decide)).2.2.2.2

/-! ## Division -/

/-- C14: in neither program does a cycle of the collector divide by zero. With
the division taken as the partial operation of C, the loop body of main.c and
the one of nvfs.c produce a table for every poll, the same table the total
model computes: main.c leaves the cycle before the division when the total is
0, nvfs.c takes 0 as the percentage. -/
theorem collector_never_divides_by_zero (q : Poll) (g : MainC.gpu_stats)
    (n : NvfsC.gpu_stats) :
    MainC.collector_cycle_div q g = some (MainC.collector_cycle q g) ∧
    NvfsC.collector_cycle_div q n = some (NvfsC.collector_cycle q n) := by
  refine ⟨?_, ?_⟩
  · unfold MainC.collector_cycle_div MainC.collector_cycle
    split_ifs with a b
    · rfl
    · rfl
    · simp [c_udiv, b, MainC.vram_perc]
  · unfold NvfsC.collector_cycle_div NvfsC.collector_cycle NvfsC.vram_perc
    by_cases h : q.mem.total = 0
    · simp [h]
    · simp [c_udiv, h]

/-! ## Reads that overlap a publish -/

theorem NvfsC.my_read_overlapped_same (n : NvfsC.gpu_stats) (path : List Nat) (size : Nat)
    (off : Int) : NvfsC.my_read_overlapped n n path size off = NvfsC.my_read n path size off := by
  unfold NvfsC.my_read_overlapped NvfsC.my_read
  cases NvfsC.select_src n path <;> rfl

/-- C15, evaluated where the code leaves the claim. In nvfs.c `my_read` holds
the mutex only while it chooses the pointer `src`; `strlen(src)` and `memcpy`
run after the unlock. When the collector publishes `100` over `25` between the
two, the read of `/vram` takes the length 2 from the old value and the bytes
from the new one and returns `10`, which was never published. The accesses of
main.c all lie between lock and unlock. -/
theorem nvfs_my_read_overlapped_mixes :
    cstr (NvfsC.collector_thread [sample_poll] NvfsC.gpu).vram = bytes "25" ∧
    cstr (NvfsC.collector_thread [sample_poll, full_poll] NvfsC.gpu).vram = bytes "100" ∧
    NvfsC.my_read_overlapped (NvfsC.collector_thread [sample_poll] NvfsC.gpu)
      (NvfsC.collector_thread [sample_poll, full_poll] NvfsC.gpu) (bytes "/vram") 4096 0
      = { ret := 2, ncopy := 2, data := bytes "10" } ∧
    bytes "10" ≠ cstr NvfsC.gpu.vram ∧
    bytes "10" ≠ cstr (NvfsC.collector_thread [sample_poll] NvfsC.gpu).vram ∧
    bytes "10" ≠ cstr (NvfsC.collector_thread [sample_poll, full_poll] NvfsC.gpu).vram ∧
    locked_accesses false NvfsC.my_read_steps = false ∧
    locked_accesses false NvfsC.collector_steps = true ∧
    locked_accesses false MainC.collector_steps = true ∧
    locked_accesses false MainC.my_read_steps = true ∧
    locked_accesses false MainC.my_getattr_steps = true := by
  decide

/-! ## The two programs resolve paths alike -/

theorem MainC.my_open_eq (path : List Nat) :
    MainC.my_open path =
      if cstr path = bytes "/vram" ∨ cstr path = bytes "/temp" ∨ cstr path = bytes "/util"
      then 0 else -ENOENT := by
  by_cases h : cstr path = bytes "/vram" ∨ cstr path = bytes "/temp" ∨ cstr path = bytes "/util"
  · rw [if_pos h]
    rcases h with h | h | h
    · simp [MainC.my_open, MainC.find_file_vram path h]
    · simp [MainC.my_open, MainC.find_file_temp path h]
    · simp [MainC.my_open, MainC.find_file_util path h]
  · rw [if_neg h]
    simp only [not_or] at h
    simp [MainC.my_open, MainC.find_file_none path h.1 h.2.1 h.2.2]

theorem NvfsC.nvfs_open_eq (path : List Nat) :
    NvfsC.my_open path =
      if cstr path = bytes "/vram" ∨ cstr path = bytes "/temp" ∨ cstr path = bytes "/util"
      then 0 else -ENOENT := by
  have ev : cstr NvfsC.PATH_VRAM = bytes "/vram" := by decide
  have et : cstr NvfsC.PATH_TEMP = bytes "/temp" := by decide
  have eu : cstr NvfsC.PATH_UTIL = bytes "/util" := by decide
  unfold NvfsC.my_open
  simp only [strcmp_eq_zero_iff, ev, et, eu]
  by_cases hv : cstr path = bytes "/vram" <;> by_cases ht : cstr path = bytes "/temp" <;>
    by_cases hu : cstr path = bytes "/util" <;> simp [hv, ht, hu]

theorem clamp_ret_nonneg (len u size : Nat) (hu : u < len) (hs : u + size < 2 ^ 64)
    (hl : len < 2 ^ 31) :
    0 ≤ to_int (if (u + size) % 2 ^ 64 > len then len - u else size) := by
  rw [Nat.mod_eq_of_lt hs]
  split_ifs with h
  · rw [to_int_of_lt _ (by omega)]; exact Int.natCast_nonneg _
  · rw [to_int_of_lt _ (by omega)]; exact Int.natCast_nonneg _

/-- C16: the two programs resolve paths alike. For every path the `strcmp`
chain of nvfs.c chooses the buffer that the entry found by `find_file` of
main.c points to, and no buffer exactly when `find_file` finds no entry;
`my_open` returns the same code in both programs; in each program `my_getattr`
returns 0 exactly when the path is `/` or `my_open` returns 0; `my_read` takes
its not-found return exactly when `my_open` returns `-ENOENT`, and for every
read whose `off + size` does not wrap (every length below `2 ^ 63`, so every
length a FUSE request carries) the value `my_read` returns is `-ENOENT` exactly
when `my_open` returns it. -/
theorem path_resolution_agrees (path tmp0 : List Nat) (g : MainC.gpu_stats)
    (n : NvfsC.gpu_stats) (st : stat) (size : Nat) (off : Int) :
    NvfsC.select_src n path = (MainC.find_file path).map (fun f => f.buf n.as_main) ∧
    MainC.my_open path = NvfsC.my_open path ∧
    ((MainC.my_getattr g path st).1 = 0 ↔ cstr path = bytes "/" ∨ MainC.my_open path = 0) ∧
    ((NvfsC.my_getattr n path st).1 = 0 ↔ cstr path = bytes "/" ∨ NvfsC.my_open path = 0) ∧
    (MainC.find_file path = none ↔ MainC.my_open path = -ENOENT) ∧
    (NvfsC.select_src n path = none ↔ NvfsC.my_open path = -ENOENT) ∧
    (size < 2 ^ 63 ∨ to_size_t off + size < 2 ^ 64 →
      ((MainC.my_read g tmp0 path size off).ret = -ENOENT ↔ MainC.my_open path = -ENOENT)) ∧
    (size < 2 ^ 63 ∨ to_size_t off + size < 2 ^ 64 → n.wf →
      ((NvfsC.my_read n path size off).ret = -ENOENT ↔ NvfsC.my_open path = -ENOENT)) := by
  have hE : (0 : Int) ≠ -ENOENT := by decide
  by_cases hp : cstr path = bytes "/vram" ∨ cstr path = bytes "/temp" ∨ cstr path = bytes "/util"
  · have hroot : cstr path ≠ bytes "/" := by
      intro h
      rcases hp with hp | hp | hp <;> rw [hp] at h <;> revert h <;> decide
    have hmo : MainC.my_open path = 0 := by rw [MainC.my_open_eq, if_pos hp]
    have hno : NvfsC.my_open path = 0 := by rw [NvfsC.nvfs_open_eq, if_pos hp]
    have hsel : NvfsC.select_src n path = (MainC.find_file path).map (fun f => f.buf n.as_main) ∧
        ∃ f src, MainC.find_file path = some f ∧ NvfsC.select_src n path = some src ∧
          (src = n.vram ∨ src = n.temp ∨ src = n.util) := by
      rcases hp with h | h | h
      · rw [MainC.find_file_vram path h, NvfsC.select_src_vram n path h]
        exact ⟨rfl, _, _, rfl, rfl, Or.inl rfl⟩
      · rw [MainC.find_file_temp path h, NvfsC.select_src_temp n path h]
        exact ⟨rfl, _, _, rfl, rfl, Or.inr (Or.inl rfl)⟩
      · rw [MainC.find_file_util path h, NvfsC.select_src_util n path h]
        exact ⟨rfl, _, _, rfl, rfl, Or.inr (Or.inr rfl)⟩
    obtain ⟨hsel, f, src, hf, hsrc, hwhich⟩ := hsel
    refine ⟨hsel, by rw [hmo, hno], ?_, ?_, by rw [hf, hmo]; simp [hE],
      by rw [hsrc, hno]; simp [hE], fun hs => ?_, fun hs hn => ?_⟩
    · rw [MainC.getattr_resolved g path st hp, hf]
      simp [hmo]
    · rw [NvfsC.my_getattr_file n path st hp]
      simp [hno]
    · rw [hmo]
      refine ⟨fun h => ?_, fun h => absurd h hE⟩
      exfalso
      have hret : (MainC.my_read g tmp0 path size off).ret =
          if to_size_t off ≥ strlen (snprintf tmp0 MainC.BUF_SIZE (cstr (f.buf g))) then 0
          else to_int (if (to_size_t off + size) % 2 ^ 64 >
              strlen (snprintf tmp0 MainC.BUF_SIZE (cstr (f.buf g)))
            then strlen (snprintf tmp0 MainC.BUF_SIZE (cstr (f.buf g))) - to_size_t off
            else size) := by
        simp only [MainC.my_read, hf]
        split_ifs <;> rfl
      rw [hret] at h
      by_cases h1 : to_size_t off ≥ strlen (snprintf tmp0 MainC.BUF_SIZE (cstr (f.buf g)))
      · rw [if_pos h1] at h
        exact hE h
      · rw [if_neg h1] at h
        have hl := MainC.strlen_tmp tmp0 (f.buf g)
        have := clamp_ret_nonneg (strlen (snprintf tmp0 MainC.BUF_SIZE (cstr (f.buf g))))
          (to_size_t off) size (by omega) (by omega) (by omega)
        rw [h] at this
        revert this
        decide
    · rw [hno]
      refine ⟨fun h => ?_, fun h => absurd h hE⟩
      exfalso
      have hlen : strlen src < 8 := by
        obtain ⟨⟨_, hv⟩, ⟨_, ht⟩, ⟨_, hu⟩⟩ := hn
        rcases hwhich with e | e | e <;> rw [e] <;> assumption
      have hret : (NvfsC.my_read n path size off).ret =
          if to_size_t off ≥ strlen src then 0
          else to_int (if (to_size_t off + size) % 2 ^ 64 > strlen src
            then strlen src - to_size_t off else size) := by
        simp only [NvfsC.my_read, hsrc]
        split_ifs <;> rfl
      rw [hret] at h
      by_cases h1 : to_size_t off ≥ strlen src
      · rw [if_pos h1] at h
        exact hE h
      · rw [if_neg h1] at h
        have := clamp_ret_nonneg (strlen src) (to_size_t off) size (by omega) (by omega)
          (by omega)
        rw [h] at this
        revert this
        decide
  · have hp2 := hp
    simp only [not_or] at hp2
    have hmo : MainC.my_open path = -ENOENT := by rw [MainC.my_open_eq, if_neg hp]
    have hno : NvfsC.my_open path = -ENOENT := by rw [NvfsC.nvfs_open_eq, if_neg hp]
    have hf := MainC.find_file_none path hp2.1 hp2.2.1 hp2.2.2
    have hsrc := NvfsC.select_src_none n path hp2.1 hp2.2.1 hp2.2.2
    have hE2 : ¬ (-ENOENT = (0 : Int)) := by decide
    refine ⟨by rw [hf, hsrc]; rfl, by rw [hmo, hno], ?_, ?_, by rw [hf, hmo]; simp,
      by rw [hsrc, hno]; simp, fun _ => ?_, fun _ _ => ?_⟩
    · rw [hmo]
      by_cases hr : cstr path = bytes "/"
      · have h0 : strcmp path (bytes "/") = 0 := (strcmp_root_iff path).2 hr
        simp [MainC.my_getattr, h0, hr]
      · rw [MainC.my_getattr_unknown g path st hr hp2.1 hp2.2.1 hp2.2.2]
        simp [hr, hE2]
    · rw [hno]
      by_cases hr : cstr path = bytes "/"
      · have h0 : strcmp path (bytes "/") = 0 := (strcmp_root_iff path).2 hr
        simp [NvfsC.my_getattr, h0, hr]
      · rw [NvfsC.nvfs_getattr_unknown n path st hr hp2.1 hp2.2.1 hp2.2.2]
        simp [hr, hE2]
    · rw [hmo]
      simp [MainC.my_read, hf]
    · rw [hno]
      simp [NvfsC.my_read, hsrc]

/-- Witness of C16: `/temp` and the unknown path `/fan`, read with a length of
4096 at offset 0 on the tables published from the example poll. -/
theorem path_resolution_agrees_witness :
    ((MainC.my_read (MainC.collector_cycle sample_poll MainC.gpu) [] (bytes "/temp") 4096 0).ret
        = -ENOENT ↔ MainC.my_open (bytes "/temp") = -ENOENT) ∧
    ((NvfsC.my_read (NvfsC.collector_cycle sample_poll NvfsC.gpu) (bytes "/fan") 4096 0).ret
        = -ENOENT ↔ NvfsC.my_open (bytes "/fan") = -ENOENT) ∧
    (NvfsC.my_read (NvfsC.collector_cycle sample_poll NvfsC.gpu) (bytes "/fan") 4096 0).ret
        = -ENOENT ∧
    MainC.my_open (bytes "/temp") = 0 :=
  ⟨(path_resolution_agrees (bytes "/temp") [] (MainC.collector_cycle sample_poll MainC.gpu)
      (NvfsC.collector_cycle sample_poll NvfsC.gpu) stat.zeroed 4096 0).2.2.2.2.2.2.1
      (Or.inl (by decide)),
   (path_resolution_agrees (bytes "/fan") [] (MainC.collector_cycle sample_poll MainC.gpu)
      (NvfsC.collector_cycle sample_poll NvfsC.gpu) stat.zeroed 4096 0).2.2.2.2.2.2.2
      (Or.inl (by decide)) (by decide),
   by decide, by decide⟩
